import Mathlib

/-!
Meshery `models.CloudProvider`: the session bridge to the SaaS backend.

A shallow embedding of `models/cloud_provider.go` and the properties of its
login, logout and result-publishing handlers.

Conventions of the embedding

* A Go `string` / `[]byte` holding text is a Lean `String`; where the code asks
  for the bytes of a string (`[]byte(tu)`) they are its UTF-8 bytes, as natural
  numbers below 256.
* What a handler does to the outside is recorded, in program order, as a list
  of `Event`s.  On the response these are the headers written: `http.SetCookie`
  adds a `Set-Cookie` header only for a cookie whose name is a valid token, and
  `http.Redirect` sets `Location` to the URL it was given after making a URL
  without scheme and host absolute against the request path, cleaning it, and
  escaping its non-ASCII bytes.  Towards the session store and the backend the
  events are the calls made, with their arguments.
* What a call hands back (a session, an error, a response, the result of
  `url.Parse`) is read from a `World`, one field per library call.
* The pure library functions whose results the properties speak about
  (`base64.URLEncoding`, `Values.Get`, `Request.Cookie`, `Cookie.String`,
  `path.Clean`, `fmt.Errorf`, `json.Unmarshal` into a `map[string]string`) are
  written out from their documented behaviour.
* A nil-pointer dereference stops the handler: a `Run` whose `result` is
  `none`.  Events recorded before the dereference are kept.
* `logrus` logging has no influence on control flow and is left out.
-/

set_option maxRecDepth 10000

namespace models

/-! ## `encoding/base64`, `URLEncoding` (RFC 4648 §5, padded) -/

/-- The 64 characters of `base64.URLEncoding`. -/
def encodeURL : List Char :=
  "ABCDEFGHIJKLMNOPQRSTUVWXYZabcdefghijklmnopqrstuvwxyz0123456789-_".data

/-- The padding character of `base64.URLEncoding` (`StdPadding`). -/
def padChar : Char := '='

/-- Table lookup `enc.encode[i]`. -/
def encChar (i : Nat) : Char := encodeURL.getD i 'A'

/-- Go `Encoding.Encode`: whole 3-byte groups become 4 characters; a remainder
of 1 or 2 bytes becomes 2 or 3 characters followed by padding. -/
def base64Encode : List Nat → List Char
  | [] => []
  | [b0] =>
    let val := b0 <<< 16
    [encChar (val >>> 18 &&& 0x3F), encChar (val >>> 12 &&& 0x3F), padChar, padChar]
  | [b0, b1] =>
    let val := b0 <<< 16 ||| b1 <<< 8
    [encChar (val >>> 18 &&& 0x3F), encChar (val >>> 12 &&& 0x3F),
     encChar (val >>> 6 &&& 0x3F), padChar]
  | b0 :: b1 :: b2 :: rest =>
    let val := b0 <<< 16 ||| b1 <<< 8 ||| b2
    encChar (val >>> 18 &&& 0x3F) :: encChar (val >>> 12 &&& 0x3F) ::
      encChar (val >>> 6 &&& 0x3F) :: encChar (val &&& 0x3F) :: base64Encode rest

/-- The bytes of a string: `[]byte(s)`. -/
def bytesOf (s : String) : List Nat :=
  (s.data.flatMap String.utf8EncodeChar).map UInt8.toNat

/-- Go `base64.URLEncoding.EncodeToString([]byte(s))`. -/
def EncodeToString (src : List Nat) : String := ⟨base64Encode src⟩

/-- Position of a character in the URL alphabet, `none` for any other
character (the padding character included). -/
def decChar (c : Char) : Option Nat :=
  let i := encodeURL.indexOf c
  if i < 64 then some i else none

/-- First byte of a decoded group: six bits of `v0`, the top two of `v1`. -/
def dec0 (v0 v1 : Nat) : Nat := (v0 <<< 2 ||| v1 >>> 4) &&& 0xFF

/-- Second byte of a decoded group: the low four bits of `v1`, the top four of `v2`. -/
def dec1 (v1 v2 : Nat) : Nat := (v1 <<< 4 ||| v2 >>> 2) &&& 0xFF

/-- Third byte of a decoded group: the low two bits of `v2`, then `v3`. -/
def dec2 (v2 v3 : Nat) : Nat := (v2 <<< 6 ||| v3) &&& 0xFF

/-- Reference decoder for padded URL-safe base64: four characters give three
bytes; the last group may end in one or two padding characters. -/
def base64Decode : List Char → Option (List Nat)
  | [] => some []
  | c0 :: c1 :: c2 :: c3 :: rest =>
    if rest = [] ∧ c3 = padChar then
      if c2 = padChar then
        match decChar c0, decChar c1 with
        | some v0, some v1 => some [dec0 v0 v1]
        | _, _ => none
      else
        match decChar c0, decChar c1, decChar c2 with
        | some v0, some v1, some v2 => some [dec0 v0 v1, dec1 v1 v2]
        | _, _, _ => none
    else
      match decChar c0, decChar c1, decChar c2, decChar c3, base64Decode rest with
      | some v0, some v1, some v2, some v3, some tl =>
        some (dec0 v0 v1 :: dec1 v1 v2 :: dec2 v2 v3 :: tl)
      | _, _, _, _, _ => none
  | _ => none

/-- Go `base64.URLEncoding.DecodeString`, on well-padded input. -/
def DecodeString (s : String) : Option (List Nat) := base64Decode s.data

/-! ## Data model -/

/-- A non-nil Go `error`: its message. -/
structure GoError where
  msg : String
deriving DecidableEq

/-- Go `errors.Wrap(err, message)`. -/
def errorsWrap (err : GoError) (message : String) : GoError :=
  ⟨message ++ ": " ++ err.msg⟩

/-- The struct `http.Cookie`, restricted to the fields this file sets or reads.  `Expires`
is an instant in nanoseconds, `none` being the zero `time.Time`. -/
structure Cookie where
  Name : String
  Value : String
  Path : String := ""
  Domain : String := ""
  Expires : Option Int := none
  HttpOnly : Bool := false
deriving DecidableEq

/-- Modelled from the spec: the `User` record is declared in another file of the
package; the spec describes it as a profile record decoded from JSON into known
fields, kept here as those fields. -/
structure User where
  fields : List (String × String)
deriving DecidableEq

/-- A value held in `session.Values` (`interface{}`): a `string`, a `*User`
(possibly the nil pointer), or a value of any other dynamic type. -/
inductive Value where
  | str (s : String)
  | user (u : Option User)
  | other
deriving DecidableEq

/-- The struct `sessions.Options`, restricted to the fields this file writes. -/
structure Options where
  Path : String := ""
  MaxAge : Int := 0
deriving DecidableEq

/-- The struct `sessions.Session`: its `Values` map, with the string keys this
file uses, and its `Options`. -/
structure Session where
  Values : List (String × Value) := []
  Options : Options := {}
deriving DecidableEq

/-- The assignment `m[k] = v` on a map kept as an association list: the entry
for `k` is replaced. -/
def mapSet {β : Type} (m : List (String × β)) (k : String) (v : β) : List (String × β) :=
  (k, v) :: m.filter (fun kv => kv.1 != k)

/-- The lookup `m[k]`, with `none` when the key is absent. -/
def mapGet {β : Type} (m : List (String × β)) (k : String) : Option β :=
  m.lookup k

/-- The type assertion `v.(string)` with the `ok` flag dropped: the zero value
on failure. -/
def asString : Option Value → String
  | some (.str s) => s
  | _ => ""

/-- The type assertion `v.(*User)` with the `ok` flag dropped: nil on failure. -/
def asUser : Option Value → Option User
  | some (.user u) => u
  | _ => none

/-- The type `url.Values`, a `map[string][]string`.  The list holds the entries of the
map in the order in which a `range` loop visits them, which Go leaves
unspecified. -/
abbrev Values := List (String × List String)

/-- The method `Values.Get`: the first value stored under `key`, or the empty
string. -/
def Values.Get (v : Values) (key : String) : String :=
  match v.lookup key with
  | some (x :: _) => x
  | _ => ""

/-- The method `Values.Set`: replaces whatever is stored under `key` by the
single `value`. -/
def Values.Set (v : Values) (key value : String) : Values :=
  mapSet v key [value]

/-- An incoming `*http.Request`: `Host`, `RequestURI`, the path `URL.Path`, the
parsed query `URL.Query()`, the well-formed cookies of the `Cookie` header in
order (name and value), and the body. -/
structure Request where
  Host : String := ""
  RequestURI : String := ""
  Path : String := ""
  Query : Values := []
  Cookies : List (String × String) := []
  Body : String := ""
deriving DecidableEq

/-- The method `Request.Cookie(name)`: the first cookie of that name, with only `Name` and
`Value` filled in; `none` stands for the nil cookie returned with `ErrNoCookie`. -/
def Request.Cookie (r : Request) (name : String) : Option Cookie :=
  match r.Cookies.find? (fun c => c.1 == name) with
  | some c => some { Name := c.1, Value := c.2 }
  | none => none

/-- A parsed `*url.URL`: `Scheme` and `Host` as parsed, `Head` everything
`String()` prints before the query, `RawQuery` the encoded query, `Hostname`
the result of `Hostname()`. -/
structure URL where
  Scheme : String := ""
  Host : String := ""
  Head : String
  RawQuery : String := ""
  Hostname : String := ""
deriving DecidableEq

/-- The method `URL.String()`. -/
def URL.String (u : URL) : String :=
  if u.RawQuery = "" then u.Head else u.Head ++ "?" ++ u.RawQuery

/-- An outgoing `*http.Request` towards the backend. `Body` is `none` for a nil
body; `Cookies` are the arguments of `AddCookie`, in call order. -/
structure ClientRequest where
  Method : String
  URL : String
  Body : Option String := none
  Cookies : List Cookie := []
deriving DecidableEq

/-- The method `(*Request).AddCookie`. -/
def ClientRequest.AddCookie (r : ClientRequest) (c : Cookie) : ClientRequest :=
  { r with Cookies := r.Cookies ++ [c] }

/-- An `*http.Response`: the status code and what `ioutil.ReadAll(resp.Body)`
returns. -/
structure Response where
  StatusCode : Int
  Body : Except GoError String

/-- A JSON document. -/
inductive JSON where
  | null
  | bool (b : Bool)
  | number (literal : String)
  | string (s : String)
  | array (items : List JSON)
  | object (members : List (String × JSON))

/-- The struct `CloudProvider`: the configuration fields (the session store is reached
through the `World`).  `loginCookieDuration` is in nanoseconds. -/
structure CloudProvider where
  SaaSTokenName : String
  SaaSBaseURL : String
  SessionName : String
  RefCookieName : String
  loginCookieDuration : Int := 3600000000000
deriving DecidableEq

/-- What the calls leaving this file return. -/
structure World where
  /-- Go `time.Now()`, in nanoseconds. -/
  now : Int
  /-- Go `url.Parse`. -/
  urlParse : String → Except GoError URL
  /-- Go `url.ParseQuery` as used by `URL.Query()`. -/
  parseQuery : String → Values
  /-- Go `Values.Encode`. -/
  encodeValues : Values → String
  /-- Go `SessionStore.New`: a session and an error; by the `Store` contract the
  session is never nil, even with an error. -/
  storeNew : Request → String → Session × Option GoError
  /-- Go `SessionStore.Get`: a session, or an error.  A nil error comes with a
  session (the `Store` contract); the session returned along with an error is
  never read by this file. -/
  storeGet : Request → String → Except GoError Session
  /-- Go `Store.Save`, reached through `session.Save`. -/
  storeSave : Session → Option GoError
  /-- Go `(*http.Client).Do`. -/
  clientDo : ClientRequest → Except GoError Response
  /-- Go `json.Unmarshal` into a `*User`. -/
  unmarshalUser : String → Except GoError User
  /-- The JSON document a text denotes; `none` when it is not valid JSON. -/
  jsonParse : String → Option JSON

/-- What a handler does to the outside. -/
inductive Event where
  /-- A `Set-Cookie` header added to the response, with the attributes of `c` as
  `Cookie.String` writes them. -/
  | SetCookie (c : Cookie)
  /-- The `Location` header `url` and the status `code` written to the response
  by `http.Redirect`. -/
  | Redirect (url : String) (code : Nat)
  /-- Go `http.Error(w, msg, code)`. -/
  | Error (msg : String) (code : Nat)
  /-- Go `SessionStore.New(req, name)`. -/
  | StoreNew (name : String)
  /-- Go `SessionStore.Get(req, name)`. -/
  | StoreGet (name : String)
  /-- Go `session.Save(req, w)`. -/
  | Save (s : Session)
  /-- Go `client.Do(r)`. -/
  | Do (r : ClientRequest)
deriving DecidableEq

/-- Go `http.StatusFound`. -/
def StatusFound : Nat := 302

/-- Go `http.StatusInternalServerError`. -/
def StatusInternalServerError : Nat := 500

/-- Go `http.StatusOK`. -/
def StatusOK : Int := 200

/-- Go `http.StatusCreated`. -/
def StatusCreated : Int := 201

/-- An execution: the calls made, in order, and the returned value; `result` is
`none` when the execution stopped at a nil-pointer dereference. -/
structure Run (α : Type) where
  events : List Event
  result : Option α
deriving DecidableEq

/-- Returning a value without any call. -/
def Run.ret {α : Type} (a : α) : Run α := ⟨[], some a⟩

/-- A nil-pointer dereference. -/
def Run.nilDeref {α : Type} : Run α := ⟨[], none⟩

/-- One recorded call. -/
def Run.emit (e : Event) : Run Unit := ⟨[e], some ()⟩

/-- Sequencing: the second part runs only when the first returned. -/
def Run.bind {α β : Type} (m : Run α) (f : α → Run β) : Run β :=
  match m.result with
  | none => ⟨m.events, none⟩
  | some a => ⟨m.events ++ (f a).events, (f a).result⟩

instance : Monad Run where
  pure := Run.ret
  bind := Run.bind

/-- Go `http.NewRequest(method, url, body)` for a valid method: fails exactly when
`url.Parse` rejects the URL. -/
def NewRequest (w : World) (method url : String) (body : Option String) :
    Except GoError ClientRequest :=
  match w.urlParse url with
  | .error e => .error e
  | .ok _ => .ok { Method := method, URL := url, Body := body }

/-! ## The response writer: `http.SetCookie` and `http.Redirect` -/

/-- Whether the byte `b` is a token character of RFC 7230: a letter, a digit or
one of the fifteen marks `! # $ % & ' * + - . ^ _ | ~` and the backquote. -/
def isTokenByte (b : Nat) : Bool :=
  (48 ≤ b && b ≤ 57) || (65 ≤ b && b ≤ 90) || (97 ≤ b && b ≤ 122) ||
    [33, 35, 36, 37, 38, 39, 42, 43, 45, 46, 94, 95, 96, 124, 126].contains b

/-- Go `isCookieNameValid`: a non-empty string of token characters. -/
def isCookieNameValid (raw : String) : Bool :=
  raw != "" && raw.data.all (fun c => isTokenByte c.toNat)

/-- Go `validCookieValueByte`: printable ASCII other than the double quote, the
semicolon and the backslash. -/
def validCookieValueByte (b : Nat) : Bool :=
  32 ≤ b && b < 127 && b != 34 && b != 59 && b != 92

/-- Go `sanitizeCookieValue`: invalid bytes are dropped, and what is left is put
between double quotes when it contains a space or a comma. -/
def sanitizeCookieValue (v : String) : String :=
  let v := v.data.filter (fun c => validCookieValueByte c.toNat)
  if v = [] then ""
  else if v.contains (Char.ofNat 32) || v.contains (Char.ofNat 44) then
    ⟨Char.ofNat 34 :: v ++ [Char.ofNat 34]⟩
  else ⟨v⟩

/-- Go `sanitizeCookiePath`: bytes other than printable ASCII, and the semicolon,
are dropped. -/
def sanitizeCookiePath (v : String) : String :=
  ⟨v.data.filter (fun c => 32 ≤ c.toNat && c.toNat < 127 && c.toNat != 59)⟩

/-- Go `validCookieExpires`: the year is at least 1601, that is the instant, in
nanoseconds since 1970, is not before the first second of 1601. -/
def validCookieExpires (t : Int) : Bool :=
  decide (-11644473600 * 1000000000 ≤ t)

/-- Go `http.SetCookie(w, c)`: a cookie whose name is not valid writes nothing;
otherwise a `Set-Cookie` header is added with the value and the path sanitized
and the expiry left out when it is not valid.  `Domain` is empty for every
cookie this file sets on a response. -/
def httpSetCookie (c : Cookie) : Run Unit :=
  if isCookieNameValid c.Name then
    Run.emit (.SetCookie
      { c with Value := sanitizeCookieValue c.Value, Path := sanitizeCookiePath c.Path,
               Expires := c.Expires.filter validCookieExpires })
  else pure ()

/-- Splitting of a path at every occurrence of `sep`. -/
def splitPath (sep : Char) : List Char → List (List Char)
  | [] => [[]]
  | c :: cs =>
    if c = sep then [] :: splitPath sep cs
    else
      match splitPath sep cs with
      | seg :: rest => (c :: seg) :: rest
      | [] => [[c]]

/-- One element of a path processed by `path.Clean`, on the stack of elements
kept so far (last one first): empty and `.` elements are dropped; `..` removes
the last kept element when there is one other than `..`, is dropped at the
root, and is kept otherwise. -/
def cleanStep (rooted : Bool) (stack : List (List Char)) (seg : List Char) : List (List Char) :=
  if seg = [] ∨ seg = ['.'] then stack
  else if seg = ['.', '.'] then
    match stack with
    | top :: below => if top = ['.', '.'] then seg :: stack else below
    | [] => if rooted then [] else [seg]
  else seg :: stack

/-- Go `path.Clean`. -/
def pathClean (p : String) : String :=
  let rooted := p.data.head? = some '/'
  let kept := ((splitPath '/' p.data).foldl (cleanStep rooted) []).reverse
  let out := (if rooted then ['/'] else []) ++ List.intercalate ['/'] kept
  if out = [] then "." else ⟨out⟩

/-- The directory part of `path.Split`: the path up to and including its last
slash. -/
def pathSplitDir (p : String) : String :=
  ⟨(p.data.reverse.dropWhile (fun c => c != '/')).reverse⟩

/-- Lower-case hexadecimal digit. -/
def hexDigit (n : Nat) : Char :=
  if n < 10 then Char.ofNat (48 + n) else Char.ofNat (87 + n)

/-- Go `hexEscapeNonASCII`: every byte of a non-ASCII character is written as a
percent sign and its value in hexadecimal. -/
def hexEscapeNonASCII (s : String) : String :=
  ⟨s.data.flatMap (fun c =>
    if c.toNat < 128 then [c]
    else (String.utf8EncodeChar c).flatMap (fun b =>
      ['%', hexDigit (b.toNat / 16), hexDigit (b.toNat % 16)]))⟩

/-- The URL `http.Redirect` writes for `url`: when `url.Parse` reads it as a URL
without scheme and host, it is made absolute against the directory of the
request path unless it starts with a slash, and its part before the query is
cleaned, a trailing slash being kept; otherwise it is left as it is. -/
def redirectURL (w : World) (r : Request) (url : String) : String :=
  match w.urlParse url with
  | .error _ => url
  | .ok u =>
    if u.Scheme = "" ∧ u.Host = "" then
      let oldpath := if r.Path = "" then "/" else r.Path
      let url := if url = "" ∨ url.data.head? ≠ some '/' then pathSplitDir oldpath ++ url else url
      let query : String := ⟨url.data.dropWhile (fun c => c != '?')⟩
      let url : String := ⟨url.data.takeWhile (fun c => c != '?')⟩
      let trailing := url.data.getLast? = some '/'
      let url := pathClean url
      let url := if trailing ∧ url.data.getLast? ≠ some '/' then url ++ "/" else url
      url ++ query
    else url

/-- Go `http.Redirect(w, r, url, code)`: the `Location` header and the status. -/
def httpRedirect (w : World) (r : Request) (url : String) (code : Nat) : Run Unit :=
  Run.emit (.Redirect (hexEscapeNonASCII (redirectURL w r url)) code)

/-! ## The handlers

Each handler follows its Go text statement by statement.  Where the code drops
an error with `_` and then uses the pointer returned along with it
(`saasURL, _ := url.Parse(...)` followed by `saasURL.String()`,
`cReq, _ := http.NewRequest(...)` followed by `cReq.AddCookie(...)`,
`session, _ := l.GetSession(req)` followed by `session.Values`), the error
case is the dereference of a nil pointer, `Run.nilDeref`. -/

/-- The inner loop of `issueSession` over the values `va` stored under key `k`:
the first value is taken, and the loop left, when `k` is the token name. -/
def tokenInner (name k : String) : List String → String → String
  | [], token => token
  | v :: rest, token => if k = name then v else tokenInner name k rest token

/-- The outer loop of `issueSession` over the entries of the query. -/
def tokenLoop (name : String) : Values → String → String
  | [], token => token
  | (k, va) :: rest, token => tokenLoop name rest (tokenInner name k va token)

/-- Body of `fetchUserDetails` once the request has been built and sent: the
response is read and decoded. -/
def readUser (w : World) (resp : Except GoError Response) : Option User × Option GoError :=
  match resp with
  | .error err => (none, some err)
  | .ok resp =>
    match resp.Body with
    | .error err => (none, some err)
    | .ok bd =>
      match w.unmarshalUser bd with
      | .error err => (none, some err)
      | .ok u => (some u, none)

/-- Method `CloudProvider.fetchUserDetails`, lines 103-135 of `models/cloud_provider.go`. -/
def fetchUserDetails (w : World) (l : CloudProvider) (tokenVal : String) :
    Run (Option User × Option GoError) :=
  match w.urlParse (l.SaaSBaseURL ++ "/user") with
  | .error _ => Run.nilDeref
  | .ok saasURL =>
    match NewRequest w "GET" saasURL.String none with
    | .error _ => Run.nilDeref
    | .ok req =>
      let req := req.AddCookie
        { Name := l.SaaSTokenName, Value := tokenVal, Path := "/", HttpOnly := true,
          Domain := saasURL.Hostname }
      do
        Run.emit (.Do req)
        pure (readUser w (w.clientDo req))

/-- Method `CloudProvider.issueSession`, lines 57-101 of `models/cloud_provider.go`. -/
def issueSession (w : World) (l : CloudProvider) (req : Request) : Run Unit :=
  let reffCk := req.Cookie l.RefCookieName
  let reffURL := match reffCk with
    | some ck => ck.Value
    | none => ""
  let reffURL := if reffURL = "" then "/" else reffURL
  do
    Run.emit (.StoreNew l.SessionName)
    let session := (w.storeNew req l.SessionName).1
    let session := { session with Options := { session.Options with Path := "/" } }
    let token := tokenLoop l.SaaSTokenName req.Query ""
    match reffCk with
      | some ck =>
        if ck.Name ≠ "" then
          httpSetCookie { ck with Expires := some (w.now + (-2) * 1000000000) }
        else pure ()
      | none => pure ()
    let session := { session with Values := mapSet session.Values l.SaaSTokenName (.str token) }
    let (user, _) ← fetchUserDetails w l token
    let session := { session with Values := mapSet session.Values "user" (.user user) }
    Run.emit (.Save session)
    let _ := w.storeSave session
    httpRedirect w req reffURL StatusFound

/-- Method `CloudProvider.InitiateLogin`, lines 38-54 of `models/cloud_provider.go`.
The Go function has no result, although its comment speaks of returning true
or false to the calling handler. -/
def InitiateLogin (w : World) (l : CloudProvider) (r : Request) : Run Unit :=
  let tu := "http://" ++ r.Host ++ r.RequestURI
  let token := Values.Get r.Query l.SaaSTokenName
  if token = "" then do
    httpSetCookie
      { Name := l.RefCookieName, Value := "/", Expires := some (w.now + l.loginCookieDuration),
        Path := "/", HttpOnly := true }
    httpRedirect w r (l.SaaSBaseURL ++ "?source=" ++ EncodeToString (bytesOf tu)) StatusFound
  else
    issueSession w l r

/-- Method `CloudProvider.GetSession`, lines 150-158 of `models/cloud_provider.go`. -/
def GetSession (w : World) (l : CloudProvider) (req : Request) :
    Run (Option Session × Option GoError) := do
  Run.emit (.StoreGet l.SessionName)
  match w.storeGet req l.SessionName with
    | .error err => pure (none, some (errorsWrap err "Error: unable to get session"))
    | .ok session => pure (some session, none)

/-- Method `CloudProvider.GetUserDetails`, lines 138-147 of `models/cloud_provider.go`. -/
def GetUserDetails (w : World) (l : CloudProvider) (req : Request) :
    Run (Option User × Option GoError) := do
  let (session, err) ← GetSession w l req
  match err with
    | some err => pure (none, some err)
    | none =>
      match session with
      | none => Run.nilDeref
      | some session => pure (asUser (mapGet session.Values "user"), none)

/-- Method `CloudProvider.GetProviderToken`, lines 161-168 of `models/cloud_provider.go`. -/
def GetProviderToken (w : World) (l : CloudProvider) (req : Request) :
    Run (String × Option GoError) := do
  let (session, err) ← GetSession w l req
  match err with
    | some err => pure ("", some err)
    | none =>
      match session with
      | none => Run.nilDeref
      | some session => pure (asString (mapGet session.Values l.SaaSTokenName), none)

/-- Method `CloudProvider.Logout`, lines 171-189 of `models/cloud_provider.go`. -/
def Logout (w : World) (l : CloudProvider) (req : Request) : Run Unit :=
  match NewRequest w "GET" (l.SaaSBaseURL ++ "/logout") (some req.Body) with
  | .error _ => Run.emit (.Error "unable to logout at the moment" StatusInternalServerError)
  | .ok cReq => do
    Run.emit (.Do cReq)
    let _ := w.clientDo cReq
    Run.emit (.StoreGet l.SessionName)
    match w.storeGet req l.SessionName with
      | .ok sess =>
        let sess := { sess with Options := { sess.Options with MaxAge := -1 } }
        Run.emit (.Save sess)
      | .error _ => pure ()
    httpRedirect w req "/login" StatusFound

/-- Go `fmt.Errorf(format, resp.StatusCode, bdr)` for the two formats of this file,
`"<what> - Status code: %d, Body: %s"`. -/
def statusError (what : String) (code : Int) (body : String) : GoError :=
  ⟨what ++ " - Status code: " ++ toString code ++ ", Body: " ++ body⟩

/-- Tail of `FetchResults`, from the return of `c.Do` on. -/
def fetchResultsResponse (resp : Except GoError Response) : Option String × Option GoError :=
  match resp with
  | .error err => (none, some err)
  | .ok resp =>
    match resp.Body with
    | .error err => (none, some err)
    | .ok bdr =>
      if resp.StatusCode = StatusOK then (some bdr, none)
      else (none, some (statusError "error while sending results" resp.StatusCode bdr))

/-- The four optional parameters of `FetchResults`, set on the query `q` of the
results URL when non-empty. -/
def resultsQuery (q : Values) (page pageSize search order : String) : Values :=
  let q := if page ≠ "" then q.Set "page" page else q
  let q := if pageSize ≠ "" then q.Set "page_size" pageSize else q
  let q := if search ≠ "" then q.Set "search" search else q
  let q := if order ≠ "" then q.Set "order" order else q
  q

/-- Method `CloudProvider.FetchResults`, lines 192-243 of `models/cloud_provider.go`. -/
def FetchResults (w : World) (l : CloudProvider) (req : Request)
    (page pageSize search order : String) : Run (Option String × Option GoError) := do
  let (session, _) ← GetSession w l req
  match session with
    | none => Run.nilDeref
    | some session =>
      let tokenVal := asString (mapGet session.Values l.SaaSTokenName)
      match w.urlParse (l.SaaSBaseURL ++ "/results") with
      | .error _ => Run.nilDeref
      | .ok saasURL =>
        let q := resultsQuery (w.parseQuery saasURL.RawQuery) page pageSize search order
        let saasURL := { saasURL with RawQuery := w.encodeValues q }
        match NewRequest w "GET" saasURL.String none with
        | .error _ => Run.nilDeref
        | .ok cReq =>
          let cReq := cReq.AddCookie
            { Name := l.SaaSTokenName, Value := tokenVal, Path := "/", HttpOnly := true,
              Domain := saasURL.Hostname }
          do
            Run.emit (.Do cReq)
            pure (fetchResultsResponse (w.clientDo cReq))

/-- One member of a JSON object stored into a `map[string]string`: a string is
stored as it is; `null` leaves the zero value, which is stored; any other value
stores the zero value and records a type error, the first such error being the
one `Unmarshal` reports. -/
def storeMember (acc : List (String × String) × Option GoError) (kv : String × JSON) :
    List (String × String) × Option GoError :=
  match kv.2 with
  | .string s => (mapSet acc.1 kv.1 s, acc.2)
  | .null => (mapSet acc.1 kv.1 "", acc.2)
  | _ =>
    (mapSet acc.1 kv.1 "",
      match acc.2 with
      | some e => some e
      | none => some ⟨"json: cannot unmarshal value into Go value of type string"⟩)

/-- Go `json.Unmarshal(bdr, &idMap)` for `idMap : map[string]string`: invalid JSON
is a syntax error; `null` sets the map to nil without error; an object is
stored member by member; any other document is a type error. -/
def unmarshalStringMap (doc : Option JSON) (idMap : List (String × String)) :
    List (String × String) × Option GoError :=
  match doc with
  | none => (idMap, some ⟨"invalid character looking for beginning of value"⟩)
  | some .null => ([], none)
  | some (.object members) => members.foldl storeMember (idMap, none)
  | some _ => (idMap, some ⟨"json: cannot unmarshal value into Go value of type map[string]string"⟩)

/-- Tail of `PublishResults`, from the return of `c.Do` on. -/
def publishResultsResponse (w : World) (resp : Except GoError Response) :
    String × Option GoError :=
  match resp with
  | .error err => ("", some err)
  | .ok resp =>
    match resp.Body with
    | .error err => ("", some err)
    | .ok bdr =>
      if resp.StatusCode = StatusCreated then
        match unmarshalStringMap (w.jsonParse bdr) [] with
        | (_, some err) => ("", some err)
        | (idMap, none) =>
          match mapGet idMap "id" with
          | some resultID => (resultID, none)
          | none => ("", none)
      else ("", some (statusError "error while sending results" resp.StatusCode bdr))

/-- Method `CloudProvider.PublishResults`, lines 246-292 of `models/cloud_provider.go`. -/
def PublishResults (w : World) (l : CloudProvider) (req : Request) (data : String) :
    Run (String × Option GoError) := do
  let (session, _) ← GetSession w l req
  match session with
    | none => Run.nilDeref
    | some session =>
      let tokenVal := asString (mapGet session.Values l.SaaSTokenName)
      match w.urlParse (l.SaaSBaseURL ++ "/result") with
      | .error _ => Run.nilDeref
      | .ok saasURL =>
        match NewRequest w "POST" saasURL.String (some data) with
        | .error _ => Run.nilDeref
        | .ok cReq =>
          let cReq := cReq.AddCookie
            { Name := l.SaaSTokenName, Value := tokenVal, Path := "/", HttpOnly := true,
              Domain := saasURL.Hostname }
          do
            Run.emit (.Do cReq)
            pure (publishResultsResponse w (w.clientDo cReq))

/-- Tail of `PublishMetrics`, from the return of `c.Do` on: the body is read
only when the status is not 200. -/
def publishMetricsResponse (resp : Except GoError Response) : Option GoError :=
  match resp with
  | .error err => some err
  | .ok resp =>
    if resp.StatusCode = StatusOK then none
    else
      match resp.Body with
      | .error err => some err
      | .ok bdr => some (statusError "error while sending metrics" resp.StatusCode bdr)

/-- Method `CloudProvider.PublishMetrics`, lines 295-328 of `models/cloud_provider.go`.
The Go function returns only once the response has been mapped, although its
comment speaks of publishing asynchronously. -/
def PublishMetrics (w : World) (l : CloudProvider) (tokenVal data : String) :
    Run (Option GoError) :=
  match w.urlParse (l.SaaSBaseURL ++ "/result/metrics") with
  | .error _ => Run.nilDeref
  | .ok saasURL =>
    match NewRequest w "PUT" saasURL.String (some data) with
    | .error _ => Run.nilDeref
    | .ok cReq =>
      let cReq := cReq.AddCookie
        { Name := l.SaaSTokenName, Value := tokenVal, Path := "/", HttpOnly := true,
          Domain := saasURL.Hostname }
      do
        Run.emit (.Do cReq)
        pure (publishMetricsResponse (w.clientDo cReq))

/-! ## Descriptions used in the statements -/

/-- The token cookie every request builder of this file attaches with `AddCookie`. -/
def tokenCookie (l : CloudProvider) (tokenVal domain : String) : Cookie :=
  { Name := l.SaaSTokenName, Value := tokenVal, Path := "/", HttpOnly := true, Domain := domain }

/-- The request `fetchUserDetails` sends for a token, once the URL `saasURL`
has been parsed. -/
def userRequest (l : CloudProvider) (saasURL : URL) (tokenVal : String) : ClientRequest :=
  { Method := "GET", URL := saasURL.String, Body := none,
    Cookies := [{ Name := l.SaaSTokenName, Value := tokenVal, Path := "/", HttpOnly := true,
                  Domain := saasURL.Hostname }] }

/-- The return URL of a login: the value of the return-to cookie when the
request carries one with a non-empty value, and the root path otherwise. -/
def reffURLOf (l : CloudProvider) (req : Request) : String :=
  match req.Cookie l.RefCookieName with
  | some ck => if ck.Value = "" then "/" else ck.Value
  | none => "/"

/-- The header by which `issueSession` expires the return-to cookie, when the
request carries one. -/
def expireEvents (w : World) (l : CloudProvider) (req : Request) : List Event :=
  match req.Cookie l.RefCookieName with
  | some ck =>
    if ck.Name ≠ "" then
      (httpSetCookie { ck with Expires := some (w.now + (-2) * 1000000000) }).events
    else []
  | none => []

/-- The session `issueSession` hands to `Save`, once the user URL `u` has been
parsed. -/
def issuedSession (w : World) (l : CloudProvider) (req : Request) (u : URL) : Session :=
  let session := (w.storeNew req l.SessionName).1
  let token := tokenLoop l.SaaSTokenName req.Query ""
  let user := (readUser w (w.clientDo (userRequest l u token))).1
  { Values := mapSet (mapSet session.Values l.SaaSTokenName (.str token)) "user" (.user user),
    Options := { session.Options with Path := "/" } }

/-- The results URL after `saasURL.RawQuery = q.Encode()`. -/
def resultsURL (w : World) (u : URL) (page pageSize search order : String) : URL :=
  { u with RawQuery :=
      w.encodeValues (resultsQuery (w.parseQuery u.RawQuery) page pageSize search order) }

/-- Whether a JSON value is a string or `null`. -/
def JSON.isStringOrNull : JSON → Bool
  | .string _ => true
  | .null => true
  | _ => false

/-- The content of a JSON string; the empty string for any other value. -/
def JSON.text : JSON → String
  | .string s => s
  | _ => ""

/-- The value of the last member of an object named `key`. -/
def lastMember (members : List (String × JSON)) (key : String) : Option JSON :=
  members.reverse.lookup key

/-- The result identifier read from an object: the text of its last `id`
member, the empty string when it has none. -/
def idOf (members : List (String × JSON)) : String :=
  match lastMember members "id" with
  | some v => v.text
  | none => ""

/-! ## Sample configurations, requests and worlds -/

/-- A provider configuration. -/
def sampleProvider : CloudProvider :=
  { SaaSTokenName := "token", SaaSBaseURL := "https://saas.example",
    SessionName := "meshery", RefCookieName := "meshery_ref" }

/-- A provider whose token parameter is called `user`. -/
def userKeyProvider : CloudProvider :=
  { SaaSTokenName := "user", SaaSBaseURL := "https://saas.example",
    SessionName := "meshery", RefCookieName := "meshery_ref" }

/-- A provider whose base URL lacks its scheme. -/
def badURLProvider : CloudProvider :=
  { SaaSTokenName := "token", SaaSBaseURL := "://saas.example",
    SessionName := "meshery", RefCookieName := "meshery_ref" }

/-- A provider whose return-to cookie has no name. -/
def noRefNameProvider : CloudProvider :=
  { SaaSTokenName := "token", SaaSBaseURL := "https://saas.example",
    SessionName := "meshery", RefCookieName := "" }

/-- A provider whose base URL is empty. -/
def noBaseURLProvider : CloudProvider :=
  { SaaSTokenName := "token", SaaSBaseURL := "",
    SessionName := "meshery", RefCookieName := "meshery_ref" }

/-- A provider whose base URL has a non-ASCII path. -/
def accentProvider : CloudProvider :=
  { SaaSTokenName := "token", SaaSBaseURL := "https://saas.example/é",
    SessionName := "meshery", RefCookieName := "meshery_ref" }

/-- What `url.Parse` gives on the URLs of the samples: a URL starting with a
colon is rejected, as Go does with "missing protocol scheme"; a URL starting
with `https://saas.example` has that scheme and host; any other URL is read as
one without scheme and host.  The query is what follows the first question
mark. -/
def sampleParse (s : String) : Except GoError URL :=
  let head : String := ⟨s.data.takeWhile (fun c => c != '?')⟩
  let query : String := ⟨(s.data.dropWhile (fun c => c != '?')).drop 1⟩
  if s.data.head? = some ':' then .error ⟨"missing protocol scheme"⟩
  else if "https://saas.example".data.isPrefixOf s.data then
    .ok { Scheme := "https", Host := "saas.example", Head := head, RawQuery := query,
          Hostname := "saas.example" }
  else .ok { Head := head, RawQuery := query }

/-- A world in which the store holds a session with the token `abc` and the
backend answers every request with 200 and an empty JSON object. -/
def sampleWorld : World :=
  { now := 1000
    urlParse := sampleParse
    parseQuery := fun _ => []
    encodeValues := fun _ => ""
    storeNew := fun _ _ => ({}, none)
    storeGet := fun _ _ => .ok { Values := [("token", .str "abc")] }
    storeSave := fun _ => none
    clientDo := fun _ => .ok { StatusCode := 200, Body := .ok "\x7b\x7d" }
    unmarshalUser := fun _ => .ok ⟨[("user_id", "u1")]⟩
    jsonParse := fun _ => none }

/-- A world whose session store cannot decode the session cookie. -/
def noSessionWorld : World :=
  { sampleWorld with storeGet := fun _ _ => .error ⟨"securecookie: the value is not valid"⟩ }

/-- A world whose backend answers every request with 201 and the body `created`. -/
def createdWorld : World :=
  { sampleWorld with clientDo := fun _ => .ok { StatusCode := 201, Body := .ok "created" } }

/-- A world whose backend answers every request with 500 and the body `boom`. -/
def failingWorld : World :=
  { sampleWorld with clientDo := fun _ => .ok { StatusCode := 500, Body := .ok "boom" } }

/-- A world whose backend answers 201 with the body `null`. -/
def nullBodyWorld : World :=
  { sampleWorld with
    clientDo := fun _ => .ok { StatusCode := 201, Body := .ok "null" }
    jsonParse := fun s => if s = "null" then some .null else none }

/-- A world whose backend answers 201 with an object whose `id` is a string. -/
def idBodyWorld : World :=
  { sampleWorld with
    clientDo := fun _ => .ok { StatusCode := 201, Body := .ok "\x7b\"id\":\"r-42\"\x7d" }
    jsonParse := fun s =>
      if s = "\x7b\"id\":\"r-42\"\x7d" then some (.object [("id", .string "r-42")]) else none }

/-- A login request whose token parameter is present but empty. -/
def loginRequest : Request :=
  { Host := "localhost:9081", RequestURI := "/login?token=", Path := "/login",
    Query := [("token", [""])] }

/-- A login request coming back with the token `abc` and a return-to cookie. -/
def tokenRequest : Request :=
  { Host := "localhost:9081", RequestURI := "/login?token=abc", Path := "/login",
    Query := [("token", ["abc"])], Cookies := [("meshery_ref", "/dashboard")] }

/-- A login request coming back with the token `abc` in the parameter `user`. -/
def userTokenRequest : Request :=
  { Host := "localhost:9081", RequestURI := "/login?user=abc", Path := "/login",
    Query := [("user", ["abc"])] }

/-- A request carrying a session cookie. -/
def cookieRequest : Request :=
  { Host := "localhost:9081", RequestURI := "/api/x", Path := "/api/x",
    Cookies := [("meshery", "c2Vzc2lvbg")] }

/-! ## Base64: decoding inverts encoding -/

theorem encChar_ne_pad : ∀ i, i < 64 → encChar i ≠ padChar := by decide

theorem decChar_encChar : ∀ i, i < 64 → decChar (encChar i) = some i := by decide

theorem or_shift (a b k : Nat) (h : b < 2 ^ k) : a <<< k ||| b = a * 2 ^ k + b := by
  rw [Nat.shiftLeft_eq, Nat.mul_comm, ← Nat.mul_add_lt_is_or h]

theorem and_mask6 (x : Nat) : x &&& 0x3F = x % 64 :=
  Nat.and_pow_two_sub_one_eq_mod x 6

theorem and_mask8 (x : Nat) : x &&& 0xFF = x % 256 :=
  Nat.and_pow_two_sub_one_eq_mod x 8

theorem val3 (b0 b1 b2 : Nat) (h1 : b1 < 256) (h2 : b2 < 256) :
    b0 <<< 16 ||| b1 <<< 8 ||| b2 = b0 * 65536 + b1 * 256 + b2 := by
  rw [Nat.or_assoc, or_shift b1 b2 8 (by omega), or_shift b0 _ 16 (by omega)]
  omega

theorem dec0_spec (b0 b1 : Nat) (h0 : b0 < 256) :
    dec0 (b0 / 4) (b0 % 4 * 16 + b1 / 16 % 16) = b0 := by
  unfold dec0
  rw [and_mask8, Nat.shiftRight_eq_div_pow, or_shift _ _ 2 (by omega)]
  omega

theorem dec1_spec (b0 b1 b2 : Nat) (h1 : b1 < 256) :
    dec1 (b0 % 4 * 16 + b1 / 16 % 16) (b1 % 16 * 4 + b2 / 64 % 4) = b1 := by
  unfold dec1
  rw [and_mask8, Nat.shiftRight_eq_div_pow, or_shift _ _ 4 (by omega)]
  omega

theorem dec2_spec (b1 b2 : Nat) (h2 : b2 < 256) :
    dec2 (b1 % 16 * 4 + b2 / 64 % 4) (b2 % 64) = b2 := by
  unfold dec2
  rw [and_mask8, or_shift _ _ 6 (by omega)]
  omega

theorem sextets (b0 b1 b2 : Nat) (h0 : b0 < 256) (h1 : b1 < 256) (h2 : b2 < 256) :
    let val := b0 <<< 16 ||| b1 <<< 8 ||| b2
    val >>> 18 &&& 0x3F = b0 / 4 ∧ val >>> 12 &&& 0x3F = b0 % 4 * 16 + b1 / 16 % 16 ∧
    val >>> 6 &&& 0x3F = b1 % 16 * 4 + b2 / 64 % 4 ∧ val &&& 0x3F = b2 % 64 := by
  intro val
  have hv : val = b0 * 65536 + b1 * 256 + b2 := val3 b0 b1 b2 h1 h2
  simp only [and_mask6, Nat.shiftRight_eq_div_pow, hv]
  omega

theorem base64Encode_quad (b0 b1 b2 : Nat) (rest : List Nat) (h0 : b0 < 256) (h1 : b1 < 256)
    (h2 : b2 < 256) :
    base64Encode (b0 :: b1 :: b2 :: rest) =
      encChar (b0 / 4) :: encChar (b0 % 4 * 16 + b1 / 16 % 16) ::
      encChar (b1 % 16 * 4 + b2 / 64 % 4) :: encChar (b2 % 64) :: base64Encode rest := by
  obtain ⟨e0, e1, e2, e3⟩ := sextets b0 b1 b2 h0 h1 h2
  simp only [base64Encode]
  rw [e0, e1, e2, e3]

theorem base64Encode_pair (b0 b1 : Nat) (h0 : b0 < 256) (h1 : b1 < 256) :
    base64Encode [b0, b1] =
      [encChar (b0 / 4), encChar (b0 % 4 * 16 + b1 / 16 % 16), encChar (b1 % 16 * 4 + 0 / 64 % 4),
       padChar] := by
  obtain ⟨e0, e1, e2, _⟩ := sextets b0 b1 0 h0 h1 (by omega)
  simp only [Nat.or_zero] at e0 e1 e2
  simp only [base64Encode]
  rw [e0, e1, e2]

theorem base64Encode_single (b0 : Nat) (h0 : b0 < 256) :
    base64Encode [b0] =
      [encChar (b0 / 4), encChar (b0 % 4 * 16 + 0 / 16 % 16), padChar, padChar] := by
  obtain ⟨e0, e1, _, _⟩ := sextets b0 0 0 h0 (by omega) (by omega)
  simp only [Nat.or_zero, Nat.zero_shiftLeft] at e0 e1
  simp only [base64Encode]
  rw [e0, e1]

theorem base64Decode_encode : ∀ (bs : List Nat), (∀ b ∈ bs, b < 256) →
    base64Decode (base64Encode bs) = some bs
  | [], _ => by simp [base64Encode, base64Decode]
  | [b0], h => by
    have h0 : b0 < 256 := h b0 (by simp)
    rw [base64Encode_single b0 h0]
    simp only [base64Decode, and_self, if_true]
    rw [decChar_encChar _ (by omega), decChar_encChar _ (by omega)]
    simp only [Option.some.injEq, List.cons.injEq, and_true]
    exact dec0_spec b0 0 h0
  | [b0, b1], h => by
    have h0 : b0 < 256 := h b0 (by simp)
    have h1 : b1 < 256 := h b1 (by simp)
    rw [base64Encode_pair b0 b1 h0 h1]
    have hne : encChar (b1 % 16 * 4 + 0 / 64 % 4) ≠ padChar := encChar_ne_pad _ (by omega)
    simp only [base64Decode, and_self, if_true, hne, if_false]
    rw [decChar_encChar _ (by omega), decChar_encChar _ (by omega), decChar_encChar _ (by omega)]
    simp only [Option.some.injEq, List.cons.injEq, and_true]
    exact ⟨dec0_spec b0 b1 h0, dec1_spec b0 b1 0 h1⟩
  | b0 :: b1 :: b2 :: rest, h => by
    have h0 : b0 < 256 := h b0 (by simp)
    have h1 : b1 < 256 := h b1 (by simp)
    have h2 : b2 < 256 := h b2 (by simp)
    have ih := base64Decode_encode rest (fun b hb => h b (by simp [hb]))
    rw [base64Encode_quad b0 b1 b2 rest h0 h1 h2]
    have hne : encChar (b2 % 64) ≠ padChar := encChar_ne_pad _ (by omega)
    simp only [base64Decode, hne, and_false, if_false, ih]
    rw [decChar_encChar _ (by omega), decChar_encChar _ (by omega), decChar_encChar _ (by omega),
      decChar_encChar _ (by omega)]
    simp only [Option.some.injEq, List.cons.injEq, and_true]
    exact ⟨dec0_spec b0 b1 h0, dec1_spec b0 b1 b2 h1, dec2_spec b1 b2 h2⟩

theorem bytesOf_lt (s : String) : ∀ b ∈ bytesOf s, b < 256 := by
  intro b hb
  simp only [bytesOf, List.mem_map] at hb
  obtain ⟨u, _, rfl⟩ := hb
  exact u.val.isLt

theorem DecodeString_EncodeToString (s : String) :
    DecodeString (EncodeToString (bytesOf s)) = some (bytesOf s) :=
  base64Decode_encode _ (bytesOf_lt s)

/-! ## Maps, the token loop and the shape of each run -/

theorem Values_Get_eq_empty (q : Values) (name : String)
    (h : ∀ v vs, q.lookup name = some (v :: vs) → v = "") : Values.Get q name = "" := by
  unfold Values.Get
  split
  · next x xs heq => exact h x xs heq
  · rfl

theorem lookup_filter_ne {β : Type} (m : List (String × β)) (k k2 : String) (h : k2 ≠ k) :
    (m.filter (fun kv => kv.1 != k)).lookup k2 = m.lookup k2 := by
  induction m with
  | nil => rfl
  | cons kv rest ih =>
    obtain ⟨a, b⟩ := kv
    by_cases hak : a = k
    · subst hak
      have h1 : (k2 == a) = false := by simpa using h
      simp [List.filter, List.lookup, h1, ih]
    · have h2 : (a != k) = true := by simpa using hak
      simp only [List.filter, h2, List.lookup]
      rw [ih]

theorem mapGet_mapSet_self {β : Type} (m : List (String × β)) (k : String) (v : β) :
    mapGet (mapSet m k v) k = some v := by
  simp [mapGet, mapSet, List.lookup]

theorem mapGet_mapSet_ne {β : Type} (m : List (String × β)) (k k2 : String) (v : β)
    (h : k2 ≠ k) : mapGet (mapSet m k v) k2 = mapGet m k2 := by
  have h1 : (k2 == k) = false := by simpa using h
  simp only [mapGet, mapSet, List.lookup, h1]
  exact lookup_filter_ne m k k2 h

theorem tokenInner_ne (name k : String) (h : k ≠ name) (va : List String) (token : String) :
    tokenInner name k va token = token := by
  induction va with
  | nil => rfl
  | cons v rest ih => simp [tokenInner, h, ih]

theorem tokenInner_self (name : String) (va : List String) (token : String) :
    tokenInner name name va token = va.headD token := by
  cases va <;> simp [tokenInner]

theorem tokenLoop_absent (name : String) (q : Values) (token : String)
    (h : name ∉ q.map Prod.fst) : tokenLoop name q token = token := by
  induction q generalizing token with
  | nil => rfl
  | cons kv rest ih =>
    obtain ⟨k, va⟩ := kv
    simp only [List.map_cons, List.mem_cons, not_or] at h
    simp only [tokenLoop]
    rw [tokenInner_ne name k (fun e => h.1 e.symm), ih token h.2]

theorem tokenLoop_lookup (name : String) (q : Values) (token : String) (va : List String)
    (hq : (q.map Prod.fst).Nodup) (h : q.lookup name = some va) :
    tokenLoop name q token = va.headD token := by
  induction q generalizing token with
  | nil => simp [List.lookup] at h
  | cons kv rest ih =>
    obtain ⟨k, va2⟩ := kv
    simp only [List.map_cons, List.nodup_cons] at hq
    simp only [tokenLoop]
    by_cases hk : name = k
    · subst hk
      simp only [List.lookup, beq_self_eq_true, Option.some.injEq] at h
      subst h
      rw [tokenInner_self, tokenLoop_absent name rest _ hq.1]
    · have h1 : (name == k) = false := by simpa using hk
      simp only [List.lookup, h1] at h
      rw [tokenInner_ne name k (fun e => hk e.symm), ih token hq.2 h]

/-- The loop of `issueSession` and `Values.Get` agree on a map. -/
theorem tokenLoop_eq_Get (name : String) (q : Values) (hq : (q.map Prod.fst).Nodup) :
    tokenLoop name q "" = Values.Get q name := by
  unfold Values.Get
  cases h : q.lookup name with
  | none =>
    have : name ∉ q.map Prod.fst := by
      intro hm
      obtain ⟨⟨k, va⟩, hmem, hk⟩ := List.mem_map.1 hm
      simp only at hk
      subst hk
      have := List.lookup_eq_none_iff.1 h
      exact absurd hmem (by
        intro hmem
        have := this (k, va) hmem
        simp at this)
    simp [tokenLoop_absent name q "" this]
  | some va =>
    rw [tokenLoop_lookup name q "" va hq h]
    cases va <;> rfl

theorem fetchUserDetails_ok (w : World) (l : CloudProvider) (tokenVal : String) (u u2 : URL)
    (hu : w.urlParse (l.SaaSBaseURL ++ "/user") = .ok u) (hu2 : w.urlParse u.String = .ok u2) :
    fetchUserDetails w l tokenVal =
      ⟨[.Do (userRequest l u tokenVal)], some (readUser w (w.clientDo (userRequest l u tokenVal)))⟩ := by
  simp [fetchUserDetails, hu, hu2, NewRequest, ClientRequest.AddCookie, userRequest, bind, Run.bind,
    Run.emit, pure, Run.ret]

theorem fetchUserDetails_parse_error (w : World) (l : CloudProvider) (tokenVal : String)
    (e : GoError) (hu : w.urlParse (l.SaaSBaseURL ++ "/user") = .error e) :
    fetchUserDetails w l tokenVal = ⟨[], none⟩ := by
  simp [fetchUserDetails, hu, Run.nilDeref]

theorem httpSetCookie_result (c : Cookie) : (httpSetCookie c).result = some () := by
  unfold httpSetCookie
  split <;> rfl

theorem httpSetCookie_events (c : Cookie) :
    ∀ e ∈ (httpSetCookie c).events, ∃ c2, e = .SetCookie c2 := by
  intro e he
  unfold httpSetCookie at he
  split at he
  · exact ⟨_, by simpa [Run.emit] using he⟩
  · simp [pure, Run.ret] at he

theorem expireEvents_setCookie (w : World) (l : CloudProvider) (req : Request) :
    ∀ e ∈ expireEvents w l req, ∃ c, e = .SetCookie c := by
  intro e he
  unfold expireEvents at he
  split at he
  · split at he
    · exact httpSetCookie_events _ e he
    · simp at he
  · simp at he

theorem issueSession_ok (w : World) (l : CloudProvider) (req : Request) (u u2 : URL)
    (hu : w.urlParse (l.SaaSBaseURL ++ "/user") = .ok u) (hu2 : w.urlParse u.String = .ok u2) :
    issueSession w l req =
      ⟨[.StoreNew l.SessionName] ++ expireEvents w l req ++
        [.Do (userRequest l u (tokenLoop l.SaaSTokenName req.Query "")),
         .Save (issuedSession w l req u),
         .Redirect (hexEscapeNonASCII (redirectURL w req (reffURLOf l req))) 302],
       some ()⟩ := by
  unfold issueSession
  simp only [fetchUserDetails_ok w l _ u u2 hu hu2]
  unfold expireEvents reffURLOf issuedSession httpRedirect
  cases hck : req.Cookie l.RefCookieName with
  | none =>
    simp [bind, Run.bind, Run.emit, pure, Run.ret, StatusFound]
  | some ck =>
    by_cases hn : ck.Name = "" <;> by_cases hv : ck.Value = "" <;>
      simp [bind, Run.bind, Run.emit, pure, Run.ret, StatusFound, hn, hv, httpSetCookie_result]

theorem GetSession_ok (w : World) (l : CloudProvider) (req : Request) (s : Session)
    (h : w.storeGet req l.SessionName = .ok s) :
    GetSession w l req = ⟨[.StoreGet l.SessionName], some (some s, none)⟩ := by
  simp [GetSession, h, bind, Run.bind, Run.emit, pure, Run.ret]

theorem GetSession_error (w : World) (l : CloudProvider) (req : Request) (e : GoError)
    (h : w.storeGet req l.SessionName = .error e) :
    GetSession w l req =
      ⟨[.StoreGet l.SessionName], some (none, some (errorsWrap e "Error: unable to get session"))⟩ := by
  simp [GetSession, h, bind, Run.bind, Run.emit, pure, Run.ret]

/-- Either `FetchResults` stops at a nil pointer before sending anything, or it
sends exactly one request, carrying the token cookie, and maps its response. -/
theorem FetchResults_run (w : World) (l : CloudProvider) (req : Request)
    (page pageSize search order : String) :
    ((FetchResults w l req page pageSize search order).result = none ∧
      ∀ c, Event.Do c ∉ (FetchResults w l req page pageSize search order).events) ∨
    ∃ cReq s domain, w.storeGet req l.SessionName = .ok s ∧
      cReq.Method = "GET" ∧
      cReq.Cookies = [tokenCookie l (asString (mapGet s.Values l.SaaSTokenName)) domain] ∧
      FetchResults w l req page pageSize search order =
        ⟨[.StoreGet l.SessionName, .Do cReq], some (fetchResultsResponse (w.clientDo cReq))⟩ := by
  unfold FetchResults
  cases hs : w.storeGet req l.SessionName with
  | error e =>
    left
    simp [GetSession_error w l req e hs, bind, Run.bind, Run.nilDeref]
  | ok s =>
    rw [GetSession_ok w l req s hs]
    cases hu : w.urlParse (l.SaaSBaseURL ++ "/results") with
    | error e =>
      left
      simp [bind, Run.bind, Run.nilDeref]
    | ok u =>
      cases hu2 : w.urlParse (resultsURL w u page pageSize search order).String with
      | error e =>
        left
        simp only [resultsURL] at hu2
        simp [bind, Run.bind, Run.nilDeref, NewRequest, hu2]
      | ok u2 =>
        right
        simp only [resultsURL] at hu2
        refine ⟨{ Method := "GET", URL := (resultsURL w u page pageSize search order).String,
                  Cookies := [tokenCookie l (asString (mapGet s.Values l.SaaSTokenName))
                    u.Hostname] }, s, u.Hostname, rfl, rfl, rfl, ?_⟩
        simp [bind, Run.bind, Run.emit, pure, Run.ret, NewRequest, hu2, ClientRequest.AddCookie,
          resultsURL, tokenCookie]

theorem PublishResults_run (w : World) (l : CloudProvider) (req : Request) (data : String) :
    ((PublishResults w l req data).result = none ∧
      ∀ c, Event.Do c ∉ (PublishResults w l req data).events) ∨
    ∃ cReq s domain, w.storeGet req l.SessionName = .ok s ∧
      cReq.Method = "POST" ∧
      cReq.Cookies = [tokenCookie l (asString (mapGet s.Values l.SaaSTokenName)) domain] ∧
      PublishResults w l req data =
        ⟨[.StoreGet l.SessionName, .Do cReq], some (publishResultsResponse w (w.clientDo cReq))⟩ := by
  unfold PublishResults
  cases hs : w.storeGet req l.SessionName with
  | error e =>
    left
    simp [GetSession_error w l req e hs, bind, Run.bind, Run.nilDeref]
  | ok s =>
    rw [GetSession_ok w l req s hs]
    cases hu : w.urlParse (l.SaaSBaseURL ++ "/result") with
    | error e =>
      left
      simp [bind, Run.bind, Run.nilDeref]
    | ok u =>
      cases hu2 : w.urlParse u.String with
      | error e =>
        left
        simp [bind, Run.bind, Run.nilDeref, NewRequest, hu2]
      | ok u2 =>
        right
        refine ⟨{ Method := "POST", URL := u.String, Body := some data,
                  Cookies := [tokenCookie l (asString (mapGet s.Values l.SaaSTokenName))
                    u.Hostname] }, s, u.Hostname, rfl, rfl, rfl, ?_⟩
        simp [bind, Run.bind, Run.emit, pure, Run.ret, NewRequest, hu2, ClientRequest.AddCookie,
          tokenCookie]

theorem PublishMetrics_run (w : World) (l : CloudProvider) (tokenVal data : String) :
    ((PublishMetrics w l tokenVal data).result = none ∧
      ∀ c, Event.Do c ∉ (PublishMetrics w l tokenVal data).events) ∨
    ∃ cReq domain, cReq.Method = "PUT" ∧
      cReq.Cookies = [tokenCookie l tokenVal domain] ∧
      PublishMetrics w l tokenVal data =
        ⟨[.Do cReq], some (publishMetricsResponse (w.clientDo cReq))⟩ := by
  unfold PublishMetrics
  cases hu : w.urlParse (l.SaaSBaseURL ++ "/result/metrics") with
  | error e =>
    left
    simp [Run.nilDeref]
  | ok u =>
    cases hu2 : w.urlParse u.String with
    | error e =>
      left
      simp [Run.nilDeref, NewRequest, hu2]
    | ok u2 =>
      right
      refine ⟨{ Method := "PUT", URL := u.String, Body := some data,
                Cookies := [tokenCookie l tokenVal u.Hostname] }, u.Hostname, rfl, rfl, ?_⟩
      simp [bind, Run.bind, Run.emit, pure, Run.ret, NewRequest, hu2, ClientRequest.AddCookie,
        tokenCookie]

/-- A request recorded by `FetchResults` is the one whose response it maps. -/
theorem FetchResults_sent (w : World) (l : CloudProvider) (req : Request)
    (page pageSize search order : String) (cReq : ClientRequest)
    (h : Event.Do cReq ∈ (FetchResults w l req page pageSize search order).events) :
    (FetchResults w l req page pageSize search order).result =
      some (fetchResultsResponse (w.clientDo cReq)) := by
  rcases FetchResults_run w l req page pageSize search order with ⟨_, hno⟩ | ⟨c, s, d, _, _, _, hrun⟩
  · exact absurd h (hno cReq)
  · rw [hrun] at h ⊢
    simp at h
    subst h
    rfl

theorem PublishResults_sent (w : World) (l : CloudProvider) (req : Request) (data : String)
    (cReq : ClientRequest) (h : Event.Do cReq ∈ (PublishResults w l req data).events) :
    (PublishResults w l req data).result =
      some (publishResultsResponse w (w.clientDo cReq)) := by
  rcases PublishResults_run w l req data with ⟨_, hno⟩ | ⟨c, s, d, _, _, _, hrun⟩
  · exact absurd h (hno cReq)
  · rw [hrun] at h ⊢
    simp at h
    subst h
    rfl

theorem PublishMetrics_sent (w : World) (l : CloudProvider) (tokenVal data : String)
    (cReq : ClientRequest) (h : Event.Do cReq ∈ (PublishMetrics w l tokenVal data).events) :
    (PublishMetrics w l tokenVal data).result =
      some (publishMetricsResponse (w.clientDo cReq)) := by
  rcases PublishMetrics_run w l tokenVal data with ⟨_, hno⟩ | ⟨c, d, _, _, hrun⟩
  · exact absurd h (hno cReq)
  · rw [hrun] at h ⊢
    simp at h
    subst h
    rfl

theorem storeMember_fst (acc : List (String × String) × Option GoError) (kv : String × JSON) :
    (storeMember acc kv).1 = mapSet acc.1 kv.1 kv.2.text := by
  unfold storeMember
  cases kv.2 <;> rfl

theorem storeMember_snd (acc : List (String × String) × Option GoError) (kv : String × JSON) :
    (storeMember acc kv).2 = none ↔ acc.2 = none ∧ kv.2.isStringOrNull = true := by
  unfold storeMember
  cases kv.2 <;> cases acc.2 <;> simp [JSON.isStringOrNull]

theorem foldl_storeMember_snd (ms : List (String × JSON))
    (acc : List (String × String) × Option GoError) :
    (ms.foldl storeMember acc).2 = none ↔
      acc.2 = none ∧ ∀ kv ∈ ms, kv.2.isStringOrNull = true := by
  induction ms generalizing acc with
  | nil => simp
  | cons kv rest ih =>
    simp only [List.foldl_cons, ih, storeMember_snd, List.mem_cons, forall_eq_or_imp]
    tauto

theorem foldl_storeMember_get (ms : List (String × JSON))
    (acc : List (String × String) × Option GoError) (k : String) :
    mapGet (ms.foldl storeMember acc).1 k =
      match lastMember ms k with
      | some v => some v.text
      | none => mapGet acc.1 k := by
  induction ms generalizing acc with
  | nil => simp [lastMember]
  | cons kv rest ih =>
    simp only [List.foldl_cons, ih, lastMember, List.reverse_cons, List.lookup_append]
    cases hr : rest.reverse.lookup k with
    | some v => simp
    | none =>
      rw [storeMember_fst]
      by_cases hk : k = kv.1
      · subst hk
        simp [mapGet_mapSet_self, List.lookup]
      · have h1 : (k == kv.1) = false := by simpa using hk
        simp [mapGet_mapSet_ne _ _ _ _ hk, List.lookup, h1]

/-! ## The response writer on well-formed input -/

theorem flatMap_ascii (cs : List Char) (h : ∀ c ∈ cs, c.toNat < 128) :
    cs.flatMap (fun c =>
      if c.toNat < 128 then [c]
      else (String.utf8EncodeChar c).flatMap (fun b =>
        ['%', hexDigit (b.toNat / 16), hexDigit (b.toNat % 16)])) = cs := by
  induction cs with
  | nil => rfl
  | cons c rest ih =>
    have hc : c.toNat < 128 := h c (by simp)
    have hr := ih (fun d hd => h d (by simp [hd]))
    simp only [List.flatMap_cons, hc, if_true, hr, List.singleton_append]

/-- An ASCII string is left as it is by `hexEscapeNonASCII`. -/
theorem hexEscapeNonASCII_ascii (s : String) (h : ∀ c ∈ s.data, c.toNat < 128) :
    hexEscapeNonASCII s = s := by
  unfold hexEscapeNonASCII
  rw [flatMap_ascii s.data h]

theorem encChar_ascii (i : Nat) : (encChar i).toNat < 128 := by
  by_cases hi : i < 64
  · have h : ∀ j, j < 64 → (encChar j).toNat < 128 := by decide
    exact h i hi
  · have hlen : encodeURL.length ≤ i := by
      have : encodeURL.length = 64 := by decide
      omega
    simp only [encChar, List.getD_eq_getElem?_getD, List.getElem?_eq_none hlen, Option.getD_none]
    decide

theorem base64Encode_ascii : ∀ (bs : List Nat), ∀ c ∈ base64Encode bs, c.toNat < 128
  | [], c, hc => by simp [base64Encode] at hc
  | [b0], c, hc => by
    simp only [base64Encode, List.mem_cons, List.mem_singleton, List.not_mem_nil, or_false] at hc
    rcases hc with rfl | rfl | rfl | rfl
    · exact encChar_ascii _
    · exact encChar_ascii _
    · decide
    · decide
  | [b0, b1], c, hc => by
    simp only [base64Encode, List.mem_cons, List.mem_singleton, List.not_mem_nil, or_false] at hc
    rcases hc with rfl | rfl | rfl | rfl
    · exact encChar_ascii _
    · exact encChar_ascii _
    · exact encChar_ascii _
    · decide
  | b0 :: b1 :: b2 :: rest, c, hc => by
    simp only [base64Encode, List.mem_cons] at hc
    rcases hc with rfl | rfl | rfl | rfl | hc
    · exact encChar_ascii _
    · exact encChar_ascii _
    · exact encChar_ascii _
    · exact encChar_ascii _
    · exact base64Encode_ascii rest c hc

/-- A URL that `url.Parse` does not read as one without scheme and host is left
as it is by `http.Redirect`. -/
theorem redirectURL_absolute (w : World) (r : Request) (url : String)
    (h : ∀ u, w.urlParse url = .ok u → u.Scheme ≠ "" ∨ u.Host ≠ "") :
    redirectURL w r url = url := by
  unfold redirectURL
  cases hp : w.urlParse url with
  | error e => rfl
  | ok u =>
    have hu := h u hp
    have hn : ¬ (u.Scheme = "" ∧ u.Host = "") := by
      intro hc
      rcases hu with hs | hh
      · exact hs hc.1
      · exact hh hc.2
    simp only [hn, if_false]

/-- The redirect of `Logout`: the path `/login` is written as it is, whatever
`url.Parse` returns for it. -/
theorem httpRedirect_login (w : World) (r : Request) :
    httpRedirect w r "/login" StatusFound = ⟨[.Redirect "/login" 302], some ()⟩ := by
  have hurl : redirectURL w r "/login" = "/login" := by
    unfold redirectURL
    cases hp : w.urlParse "/login" with
    | error e => rfl
    | ok u =>
      have hc : ¬ ("/login" = "" ∨ "/login".data.head? ≠ some '/') := by decide
      simp only [hc, if_false]
      split
      · decide
      · rfl
  have hesc : hexEscapeNonASCII "/login" = "/login" := by decide
  simp only [httpRedirect, hurl, hesc, Run.emit, StatusFound]

/-! ## The claims -/

/-- C1, as stated, fails on three provider configurations, each on a login
request without a token.  With an empty `RefCookieName` the cookie has no valid
name and no `Set-Cookie` header is written.  With an empty `SaaSBaseURL` the
redirect URL has neither scheme nor host and `http.Redirect` makes it absolute:
the `Location` is `/?source=E`.  With a non-ASCII `SaaSBaseURL` the `Location`
carries its bytes percent-escaped. -/
theorem InitiateLogin_without_token_counterexample :
    (InitiateLogin sampleWorld noRefNameProvider loginRequest =
      ⟨[.Redirect "https://saas.example?source=aHR0cDovL2xvY2FsaG9zdDo5MDgxL2xvZ2luP3Rva2VuPQ=="
          302], some ()⟩ ∧
     ∀ c, Event.SetCookie c ∉ (InitiateLogin sampleWorld noRefNameProvider loginRequest).events) ∧
    (InitiateLogin sampleWorld noBaseURLProvider loginRequest =
      ⟨[.SetCookie { Name := "meshery_ref", Value := "/", Path := "/", HttpOnly := true,
                     Expires := some 3600000001000 },
        .Redirect "/?source=aHR0cDovL2xvY2FsaG9zdDo5MDgxL2xvZ2luP3Rva2VuPQ==" 302], some ()⟩ ∧
     Event.Redirect (noBaseURLProvider.SaaSBaseURL ++ "?source=" ++
         EncodeToString (bytesOf ("http://" ++ loginRequest.Host ++ loginRequest.RequestURI))) 302 ∉
       (InitiateLogin sampleWorld noBaseURLProvider loginRequest).events) ∧
    (InitiateLogin sampleWorld accentProvider loginRequest =
      ⟨[.SetCookie { Name := "meshery_ref", Value := "/", Path := "/", HttpOnly := true,
                     Expires := some 3600000001000 },
        .Redirect
          "https://saas.example/%c3%a9?source=aHR0cDovL2xvY2FsaG9zdDo5MDgxL2xvZ2luP3Rva2VuPQ=="
          302], some ()⟩ ∧
     Event.Redirect (accentProvider.SaaSBaseURL ++ "?source=" ++
         EncodeToString (bytesOf ("http://" ++ loginRequest.Host ++ loginRequest.RequestURI))) 302 ∉
       (InitiateLogin sampleWorld accentProvider loginRequest).events) := by
  refine ⟨⟨by decide, ?_⟩, ⟨by decide, by decide⟩, ⟨by decide, by decide⟩⟩
  have h : InitiateLogin sampleWorld noRefNameProvider loginRequest =
      ⟨[.Redirect "https://saas.example?source=aHR0cDovL2xvY2FsaG9zdDo5MDgxL2xvZ2luP3Rva2VuPQ=="
          302], some ()⟩ := by decide
  rw [h]
  intro c hc
  simp at hc

/-- C1, amended: when `RefCookieName` is a valid cookie name, `SaaSBaseURL` is
ASCII and `url.Parse` does not read the redirect URL as one without scheme and
host, and the query holds no value, or an empty first value, for the token
parameter, `InitiateLogin` writes exactly one cookie and one redirect and makes
no call to the session store: the cookie is named `RefCookieName`, has value and
path `/` and is `HttpOnly`; the redirect has status 302 and `Location`
`SaaSBaseURL + "?source=" + E`, where `E` is the padded URL-safe base64 encoding
of `"http://" + Host + RequestURI`; decoding `E` gives back the bytes of that
return URL. -/
theorem InitiateLogin_without_token (w : World) (l : CloudProvider) (r : Request)
    (h : ∀ v vs, r.Query.lookup l.SaaSTokenName = some (v :: vs) → v = "")
    (hname : isCookieNameValid l.RefCookieName = true)
    (hascii : ∀ c ∈ l.SaaSBaseURL.data, c.toNat < 128)
    (habs : ∀ u, w.urlParse (l.SaaSBaseURL ++ "?source=" ++
        EncodeToString (bytesOf ("http://" ++ r.Host ++ r.RequestURI))) = .ok u →
      u.Scheme ≠ "" ∨ u.Host ≠ "") :
    InitiateLogin w l r =
      ⟨[.SetCookie { Name := l.RefCookieName, Value := "/", Path := "/", HttpOnly := true,
                     Expires := (some (w.now + l.loginCookieDuration)).filter validCookieExpires,
                     Domain := "" },
        .Redirect (l.SaaSBaseURL ++ "?source=" ++
          EncodeToString (bytesOf ("http://" ++ r.Host ++ r.RequestURI))) 302],
       some ()⟩ ∧
    (∀ e ∈ (InitiateLogin w l r).events,
      (∀ n, e ≠ .StoreNew n) ∧ (∀ n, e ≠ .StoreGet n) ∧ (∀ s, e ≠ .Save s)) ∧
    DecodeString (EncodeToString (bytesOf ("http://" ++ r.Host ++ r.RequestURI))) =
      some (bytesOf ("http://" ++ r.Host ++ r.RequestURI)) := by
  have hesc : hexEscapeNonASCII (l.SaaSBaseURL ++ "?source=" ++
      EncodeToString (bytesOf ("http://" ++ r.Host ++ r.RequestURI))) =
      l.SaaSBaseURL ++ "?source=" ++
        EncodeToString (bytesOf ("http://" ++ r.Host ++ r.RequestURI)) := by
    apply hexEscapeNonASCII_ascii
    intro c hc
    simp only [String.data_append, List.mem_append] at hc
    rcases hc with (hc | hc) | hc
    · exact hascii c hc
    · have hq : ∀ d ∈ "?source=".data, d.toNat < 128 := by decide
      exact hq c hc
    · exact base64Encode_ascii _ c hc
  have hval : sanitizeCookieValue "/" = "/" := by decide
  have hpath : sanitizeCookiePath "/" = "/" := by decide
  have hrun : InitiateLogin w l r =
      ⟨[.SetCookie { Name := l.RefCookieName, Value := "/", Path := "/", HttpOnly := true,
                     Expires := (some (w.now + l.loginCookieDuration)).filter validCookieExpires,
                     Domain := "" },
        .Redirect (l.SaaSBaseURL ++ "?source=" ++
          EncodeToString (bytesOf ("http://" ++ r.Host ++ r.RequestURI))) 302],
       some ()⟩ := by
    simp only [InitiateLogin, Values_Get_eq_empty r.Query l.SaaSTokenName h, if_true,
      httpSetCookie, hname, httpRedirect, redirectURL_absolute w r _ habs, hesc, hval, hpath]
    simp [bind, Run.bind, Run.emit, StatusFound]
  refine ⟨hrun, ?_, DecodeString_EncodeToString _⟩
  rw [hrun]
  intro e he
  simp only [List.mem_cons, List.mem_singleton, List.not_mem_nil, or_false] at he
  rcases he with rfl | rfl <;> simp

/-- Witness of the amended C1: a login request with an empty token parameter. -/
theorem InitiateLogin_without_token_witness :
    InitiateLogin sampleWorld sampleProvider loginRequest =
      ⟨[.SetCookie { Name := "meshery_ref", Value := "/", Path := "/", HttpOnly := true,
                     Expires := some 3600000001000 },
        .Redirect "https://saas.example?source=aHR0cDovL2xvY2FsaG9zdDo5MDgxL2xvZ2luP3Rva2VuPQ=="
          302],
       some ()⟩ ∧
    DecodeString "aHR0cDovL2xvY2FsaG9zdDo5MDgxL2xvZ2luP3Rva2VuPQ==" =
      some (bytesOf "http://localhost:9081/login?token=") :=
  have h := InitiateLogin_without_token sampleWorld sampleProvider loginRequest
    (by
      intro v vs h
      have h2 : loginRequest.Query.lookup sampleProvider.SaaSTokenName = some [""] := by decide
      rw [h2] at h
      injection h with h
      injection h with h _
      exact h.symm)
    (by decide) (by decide)
    (by
      intro u hu
      have h2 : sampleWorld.urlParse (sampleProvider.SaaSBaseURL ++ "?source=" ++
          EncodeToString (bytesOf ("http://" ++ loginRequest.Host ++ loginRequest.RequestURI))) =
          .ok { Scheme := "https", Host := "saas.example", Head := "https://saas.example",
                RawQuery := "source=aHR0cDovL2xvY2FsaG9zdDo5MDgxL2xvZ2luP3Rva2VuPQ==",
                Hostname := "saas.example" } := by rfl
      rw [h2] at hu
      injection hu with hu
      subst hu
      exact Or.inl (by decide))
  ⟨h.1, h.2.2⟩

/-- C2, as stated, fails on two provider configurations.  With the token
parameter named `user`, the token written under that key is overwritten by the
user profile before the session is saved, so the saved session does not hold the
token.  With a base URL that `url.Parse` rejects, `fetchUserDetails` dereferences
the nil URL and no session is saved at all. -/
theorem InitiateLogin_token_counterexample :
    (InitiateLogin sampleWorld userKeyProvider userTokenRequest =
      ⟨[.StoreNew "meshery",
        .Do { Method := "GET", URL := "https://saas.example/user", Body := none,
              Cookies := [{ Name := "user", Value := "abc", Path := "/", HttpOnly := true,
                            Domain := "saas.example" }] },
        .Save { Values := [("user", .user (some ⟨[("user_id", "u1")]⟩))],
                Options := { Path := "/" } },
        .Redirect "/" 302], some ()⟩ ∧
     ¬ ∃ s, Event.Save s ∈ (InitiateLogin sampleWorld userKeyProvider userTokenRequest).events ∧
       mapGet s.Values "user" = some (.str "abc")) ∧
    (InitiateLogin sampleWorld badURLProvider tokenRequest =
      ⟨[.StoreNew "meshery",
        .SetCookie { Name := "meshery_ref", Value := "/dashboard", Expires := some (-1999999000) }],
       none⟩ ∧
     ∀ s, Event.Save s ∉ (InitiateLogin sampleWorld badURLProvider tokenRequest).events) := by
  have h1 : InitiateLogin sampleWorld userKeyProvider userTokenRequest =
      ⟨[.StoreNew "meshery",
        .Do { Method := "GET", URL := "https://saas.example/user", Body := none,
              Cookies := [{ Name := "user", Value := "abc", Path := "/", HttpOnly := true,
                            Domain := "saas.example" }] },
        .Save { Values := [("user", .user (some ⟨[("user_id", "u1")]⟩))],
                Options := { Path := "/" } },
        .Redirect "/" 302], some ()⟩ := by decide
  have h2 : InitiateLogin sampleWorld badURLProvider tokenRequest =
      ⟨[.StoreNew "meshery",
        .SetCookie { Name := "meshery_ref", Value := "/dashboard", Expires := some (-1999999000) }],
       none⟩ := by decide
  refine ⟨⟨h1, ?_⟩, h2, ?_⟩
  · rw [h1]
    rintro ⟨s, hs, hv⟩
    simp only [List.mem_cons, List.mem_singleton, List.not_mem_nil, or_false, reduceCtorEq,
      false_or, Event.Save.injEq] at hs
    subst hs
    simp [mapGet, List.lookup] at hv
  · rw [h2]
    intro s hs
    simp at hs

/-- C2, amended: when the query, a map, carries a non-empty token `t` as the
first value of the token parameter, the token parameter is not named `user`,
and `url.Parse` accepts `SaaSBaseURL + "/user"` and its rendering, `InitiateLogin`
returns, creates a new session under `SessionName`, and saves exactly one
session, which holds `t` under the key `SaaSTokenName`. -/
theorem InitiateLogin_with_token (w : World) (l : CloudProvider) (r : Request) (t : String)
    (vs : List String) (u u2 : URL)
    (hq : (r.Query.map Prod.fst).Nodup)
    (ht : r.Query.lookup l.SaaSTokenName = some (t :: vs)) (hne : t ≠ "")
    (hname : l.SaaSTokenName ≠ "user")
    (hu : w.urlParse (l.SaaSBaseURL ++ "/user") = .ok u) (hu2 : w.urlParse u.String = .ok u2) :
    (InitiateLogin w l r).result = some () ∧
    Event.StoreNew l.SessionName ∈ (InitiateLogin w l r).events ∧
    ∃ s, Event.Save s ∈ (InitiateLogin w l r).events ∧
      (∀ s2, Event.Save s2 ∈ (InitiateLogin w l r).events → s2 = s) ∧
      mapGet s.Values l.SaaSTokenName = some (.str t) := by
  have hget : Values.Get r.Query l.SaaSTokenName = t := by simp [Values.Get, ht]
  have hloop : tokenLoop l.SaaSTokenName r.Query "" = t := by
    rw [tokenLoop_eq_Get _ _ hq, hget]
  have hrun : InitiateLogin w l r = issueSession w l r := by
    simp [InitiateLogin, hget, hne]
  rw [hrun, issueSession_ok w l r u u2 hu hu2]
  refine ⟨rfl, by simp, issuedSession w l r u, by simp, ?_, ?_⟩
  · intro s2 hs2
    have hexp : ∀ s, Event.Save s ∉ expireEvents w l r := by
      intro s hs
      obtain ⟨c, hc⟩ := expireEvents_setCookie w l r _ hs
      simp at hc
    simpa [hexp] using hs2
  · simp only [issuedSession]
    rw [mapGet_mapSet_ne _ _ _ _ hname, mapGet_mapSet_self, hloop]

/-- Witness of the amended C2: the token `abc` in the parameter `token`. -/
theorem InitiateLogin_with_token_witness :
    (InitiateLogin sampleWorld sampleProvider tokenRequest).result = some () ∧
    Event.StoreNew "meshery" ∈ (InitiateLogin sampleWorld sampleProvider tokenRequest).events ∧
    ∃ s, Event.Save s ∈ (InitiateLogin sampleWorld sampleProvider tokenRequest).events ∧
      (∀ s2, Event.Save s2 ∈ (InitiateLogin sampleWorld sampleProvider tokenRequest).events →
        s2 = s) ∧
      mapGet s.Values "token" = some (.str "abc") :=
  InitiateLogin_with_token sampleWorld sampleProvider tokenRequest "abc" []
    { Scheme := "https", Host := "saas.example", Head := "https://saas.example/user",
      Hostname := "saas.example" }
    { Scheme := "https", Host := "saas.example", Head := "https://saas.example/user",
      Hostname := "saas.example" }
    (by decide) (by decide) (by decide) (by decide) rfl rfl

/-- C3 fails on the code when `url.Parse` rejects `SaaSBaseURL + "/user"`:
`fetchUserDetails` drops the error and dereferences the nil URL, so
`issueSession` stops after `SessionStore.New` and the expiry of the return-to
cookie, and writes no redirect. -/
theorem issueSession_nil_URL_dereference :
    issueSession sampleWorld badURLProvider tokenRequest =
      ⟨[.StoreNew "meshery",
        .SetCookie { Name := "meshery_ref", Value := "/dashboard", Expires := some (-1999999000) }],
       none⟩ ∧
    ∀ url code, Event.Redirect url code ∉
      (issueSession sampleWorld badURLProvider tokenRequest).events := by
  have h : issueSession sampleWorld badURLProvider tokenRequest =
      ⟨[.StoreNew "meshery",
        .SetCookie { Name := "meshery_ref", Value := "/dashboard", Expires := some (-1999999000) }],
       none⟩ := by decide
  refine ⟨h, ?_⟩
  rw [h]
  intro url code hmem
  simp at hmem

/-- C4, as stated, fails on two inputs.  When the session store's `Get` returns
an error, `Logout` redirects without saving any session.  When the logout
request cannot be built, `Logout` answers 500 and neither saves nor redirects. -/
theorem Logout_counterexample :
    (Logout noSessionWorld sampleProvider cookieRequest =
      ⟨[.Do { Method := "GET", URL := "https://saas.example/logout", Body := some "" },
        .StoreGet "meshery", .Redirect "/login" 302], some ()⟩ ∧
     ∀ s, Event.Save s ∉ (Logout noSessionWorld sampleProvider cookieRequest).events) ∧
    (Logout sampleWorld badURLProvider cookieRequest =
      ⟨[.Error "unable to logout at the moment" 500], some ()⟩ ∧
     ∀ url code, Event.Redirect url code ∉
       (Logout sampleWorld badURLProvider cookieRequest).events) := by
  have h1 : Logout noSessionWorld sampleProvider cookieRequest =
      ⟨[.Do { Method := "GET", URL := "https://saas.example/logout", Body := some "" },
        .StoreGet "meshery", .Redirect "/login" 302], some ()⟩ := by decide
  have h2 : Logout sampleWorld badURLProvider cookieRequest =
      ⟨[.Error "unable to logout at the moment" 500], some ()⟩ := by decide
  refine ⟨⟨h1, ?_⟩, h2, ?_⟩
  · rw [h1]
    intro s hs
    simp at hs
  · rw [h2]
    intro url code hmem
    simp at hmem

/-- C4, amended: when `url.Parse` accepts `SaaSBaseURL + "/logout"`, `Logout`
sends the backend request, ignores its outcome, and ends with the 302 redirect
to `/login`; when the session store's `Get` returns the session it saves it with
`MaxAge` set to -1 before redirecting, and when `Get` returns an error it saves
nothing. -/
theorem Logout_redirects (w : World) (l : CloudProvider) (req : Request) (u : URL)
    (hu : w.urlParse (l.SaaSBaseURL ++ "/logout") = .ok u) :
    (∀ sess, w.storeGet req l.SessionName = .ok sess →
      Logout w l req =
        ⟨[.Do { Method := "GET", URL := l.SaaSBaseURL ++ "/logout", Body := some req.Body },
          .StoreGet l.SessionName,
          .Save { sess with Options := { sess.Options with MaxAge := -1 } },
          .Redirect "/login" 302], some ()⟩) ∧
    (∀ err, w.storeGet req l.SessionName = .error err →
      Logout w l req =
        ⟨[.Do { Method := "GET", URL := l.SaaSBaseURL ++ "/logout", Body := some req.Body },
          .StoreGet l.SessionName, .Redirect "/login" 302], some ()⟩) ∧
    (∀ f, Logout { w with clientDo := f } l req = Logout w l req) := by
  refine ⟨?_, ?_, ?_⟩
  · intro sess hs
    simp [Logout, NewRequest, hu, hs, httpRedirect_login, bind, Run.bind, Run.emit, pure,
      Run.ret]
  · intro err hs
    simp [Logout, NewRequest, hu, hs, httpRedirect_login, bind, Run.bind, Run.emit, pure,
      Run.ret]
  · intro f
    rfl

/-- Witness of the amended C4: a logout with a session in the store. -/
theorem Logout_redirects_witness :
    Logout sampleWorld sampleProvider cookieRequest =
      ⟨[.Do { Method := "GET", URL := "https://saas.example/logout", Body := some "" },
        .StoreGet "meshery",
        .Save { Values := [("token", .str "abc")], Options := { MaxAge := -1 } },
        .Redirect "/login" 302], some ()⟩ :=
  (Logout_redirects sampleWorld sampleProvider cookieRequest
    { Scheme := "https", Host := "saas.example", Head := "https://saas.example/logout",
      Hostname := "saas.example" } rfl).1 _ rfl

/-- C5, as stated, fails for each operation: `FetchResults` and `PublishMetrics`
return an error on status 201, and `PublishResults` returns an error on
status 200. -/
theorem status_success_counterexample :
    (FetchResults createdWorld sampleProvider cookieRequest "" "" "" "").result =
      some (none, some ⟨"error while sending results - Status code: 201, Body: created"⟩) ∧
    (PublishMetrics createdWorld sampleProvider "abc" "m").result =
      some (some ⟨"error while sending metrics - Status code: 201, Body: created"⟩) ∧
    (PublishResults sampleWorld sampleProvider cookieRequest "r").result =
      some ("", some ⟨"error while sending results - Status code: 200, Body: \x7b\x7d"⟩) := by
  refine ⟨?_, ?_, ?_⟩ <;> decide

/-- C5, amended: for the response to the request the operation sent,
`FetchResults` maps status 200 with a readable body to success and returns the
body; `PublishResults` maps status 201 with a readable body that decodes into a
map of strings to success; `PublishMetrics` maps status 200 to success. -/
theorem status_success (w : World) (l : CloudProvider) (req : Request)
    (page pageSize search order tokenVal data : String) (cReq : ClientRequest) (resp : Response)
    (hresp : w.clientDo cReq = .ok resp) :
    (Event.Do cReq ∈ (FetchResults w l req page pageSize search order).events →
      resp.StatusCode = 200 → ∀ body, resp.Body = .ok body →
      (FetchResults w l req page pageSize search order).result = some (some body, none)) ∧
    (Event.Do cReq ∈ (PublishResults w l req data).events →
      resp.StatusCode = 201 → ∀ body, resp.Body = .ok body →
      (unmarshalStringMap (w.jsonParse body) []).2 = none →
      ∃ id, (PublishResults w l req data).result = some (id, none)) ∧
    (Event.Do cReq ∈ (PublishMetrics w l tokenVal data).events →
      resp.StatusCode = 200 →
      (PublishMetrics w l tokenVal data).result = some none) := by
  refine ⟨?_, ?_, ?_⟩
  · intro h hs body hb
    rw [FetchResults_sent w l req page pageSize search order cReq h, hresp]
    simp [fetchResultsResponse, hb, hs, StatusOK]
  · intro h hs body hb hj
    rw [PublishResults_sent w l req data cReq h, hresp]
    simp only [publishResultsResponse, hb, hs, StatusCreated, if_true]
    rcases hm : unmarshalStringMap (w.jsonParse body) [] with ⟨m, e⟩
    rw [hm] at hj
    simp only at hj
    subst hj
    simp only
    cases mapGet m "id" with
    | none => exact ⟨"", rfl⟩
    | some v => exact ⟨v, rfl⟩
  · intro h hs
    rw [PublishMetrics_sent w l tokenVal data cReq h, hresp]
    simp [publishMetricsResponse, hs, StatusOK]

/-- Witness of the amended C5: a backend answering 200 to `FetchResults` and
`PublishMetrics`, and 201 with an `id` to `PublishResults`. -/
theorem status_success_witness :
    (FetchResults sampleWorld sampleProvider cookieRequest "" "" "" "").result =
      some (some "\x7b\x7d", none) ∧
    (∃ id, (PublishResults idBodyWorld sampleProvider cookieRequest "r").result =
      some (id, none)) ∧
    (PublishMetrics sampleWorld sampleProvider "abc" "m").result = some none :=
  have h1 := status_success sampleWorld sampleProvider cookieRequest "" "" "" "" "abc" "m"
    { Method := "GET", URL := "https://saas.example/results",
      Cookies := [{ Name := "token", Value := "abc", Path := "/", HttpOnly := true,
                    Domain := "saas.example" }] }
    { StatusCode := 200, Body := .ok "\x7b\x7d" } rfl
  have h2 := status_success idBodyWorld sampleProvider cookieRequest "" "" "" "" "abc" "r"
    { Method := "POST", URL := "https://saas.example/result", Body := some "r",
      Cookies := [{ Name := "token", Value := "abc", Path := "/", HttpOnly := true,
                    Domain := "saas.example" }] }
    { StatusCode := 201, Body := .ok "\x7b\"id\":\"r-42\"\x7d" } rfl
  have h3 := status_success sampleWorld sampleProvider cookieRequest "" "" "" "" "abc" "m"
    { Method := "PUT", URL := "https://saas.example/result/metrics", Body := some "m",
      Cookies := [{ Name := "token", Value := "abc", Path := "/", HttpOnly := true,
                    Domain := "saas.example" }] }
    { StatusCode := 200, Body := .ok "\x7b\x7d" } rfl
  ⟨h1.1 (by decide) rfl _ rfl, h2.2.1 (by decide) rfl _ rfl (by decide),
    h3.2.2 (by decide) rfl⟩

/-- C6: for each of `FetchResults`, `PublishResults` and `PublishMetrics`, when
the backend answers the request the operation sent with a status other than 200
and 201 and the body is read, the operation returns a non-nil error and no
result data, and the error message contains the decimal status code and the
body text. -/
theorem status_error (w : World) (l : CloudProvider) (req : Request)
    (page pageSize search order tokenVal data : String) (cReq : ClientRequest) (resp : Response)
    (body : String) (hresp : w.clientDo cReq = .ok resp) (hbody : resp.Body = .ok body)
    (h200 : resp.StatusCode ≠ 200) (h201 : resp.StatusCode ≠ 201) :
    (Event.Do cReq ∈ (FetchResults w l req page pageSize search order).events →
      ∃ err, (FetchResults w l req page pageSize search order).result = some (none, some err) ∧
        List.IsInfix (toString resp.StatusCode).data err.msg.data ∧
        List.IsInfix body.data err.msg.data) ∧
    (Event.Do cReq ∈ (PublishResults w l req data).events →
      ∃ err, (PublishResults w l req data).result = some ("", some err) ∧
        List.IsInfix (toString resp.StatusCode).data err.msg.data ∧
        List.IsInfix body.data err.msg.data) ∧
    (Event.Do cReq ∈ (PublishMetrics w l tokenVal data).events →
      ∃ err, (PublishMetrics w l tokenVal data).result = some (some err) ∧
        List.IsInfix (toString resp.StatusCode).data err.msg.data ∧
        List.IsInfix body.data err.msg.data) := by
  have hmsg : ∀ what : String,
      List.IsInfix (toString resp.StatusCode).data
        (statusError what resp.StatusCode body).msg.data ∧
      List.IsInfix body.data (statusError what resp.StatusCode body).msg.data := by
    intro what
    constructor
    · exact ⟨(what ++ " - Status code: ").data, (", Body: " ++ body).data, by
        simp [statusError, String.data_append, List.append_assoc]⟩
    · exact ⟨(what ++ " - Status code: " ++ toString resp.StatusCode ++ ", Body: ").data, [], by
        simp [statusError, String.data_append, List.append_assoc]⟩
  refine ⟨?_, ?_, ?_⟩
  · intro h
    refine ⟨statusError "error while sending results" resp.StatusCode body, ?_, hmsg _⟩
    rw [FetchResults_sent w l req page pageSize search order cReq h, hresp]
    simp [fetchResultsResponse, hbody, h200, StatusOK]
  · intro h
    refine ⟨statusError "error while sending results" resp.StatusCode body, ?_, hmsg _⟩
    rw [PublishResults_sent w l req data cReq h, hresp]
    simp [publishResultsResponse, hbody, h201, StatusCreated]
  · intro h
    refine ⟨statusError "error while sending metrics" resp.StatusCode body, ?_, hmsg _⟩
    rw [PublishMetrics_sent w l tokenVal data cReq h, hresp]
    simp [publishMetricsResponse, hbody, h200, StatusOK]

/-- Witness of C6: a backend answering 500 with the body `boom`. -/
theorem status_error_witness :
    (∃ err, (FetchResults failingWorld sampleProvider cookieRequest "" "" "" "").result =
        some (none, some err) ∧
      List.IsInfix (toString (500 : Int)).data err.msg.data ∧
      List.IsInfix "boom".data err.msg.data) ∧
    (∃ err, (PublishResults failingWorld sampleProvider cookieRequest "r").result =
        some ("", some err) ∧
      List.IsInfix (toString (500 : Int)).data err.msg.data ∧
      List.IsInfix "boom".data err.msg.data) ∧
    (∃ err, (PublishMetrics failingWorld sampleProvider "abc" "m").result = some (some err) ∧
      List.IsInfix (toString (500 : Int)).data err.msg.data ∧
      List.IsInfix "boom".data err.msg.data) :=
  have h1 := status_error failingWorld sampleProvider cookieRequest "" "" "" "" "abc" "m"
    { Method := "GET", URL := "https://saas.example/results",
      Cookies := [{ Name := "token", Value := "abc", Path := "/", HttpOnly := true,
                    Domain := "saas.example" }] }
    { StatusCode := 500, Body := .ok "boom" } "boom" rfl rfl (by decide) (by decide)
  have h2 := status_error failingWorld sampleProvider cookieRequest "" "" "" "" "abc" "r"
    { Method := "POST", URL := "https://saas.example/result", Body := some "r",
      Cookies := [{ Name := "token", Value := "abc", Path := "/", HttpOnly := true,
                    Domain := "saas.example" }] }
    { StatusCode := 500, Body := .ok "boom" } "boom" rfl rfl (by decide) (by decide)
  have h3 := status_error failingWorld sampleProvider cookieRequest "" "" "" "" "abc" "m"
    { Method := "PUT", URL := "https://saas.example/result/metrics", Body := some "m",
      Cookies := [{ Name := "token", Value := "abc", Path := "/", HttpOnly := true,
                    Domain := "saas.example" }] }
    { StatusCode := 500, Body := .ok "boom" } "boom" rfl rfl (by decide) (by decide)
  ⟨h1.1 (by decide), h2.2.1 (by decide), h3.2.2 (by decide)⟩

/-- C7: each of `GetSession`, `GetUserDetails` and `GetProviderToken` makes one
call, the store's `Get` for `SessionName`, and writes nothing.  When `Get`
returns an error they return that error, wrapped, with no session, no user and
the empty string; when `Get` returns a session they return, without error, the
session, the `*User` stored under `user` (nil when absent or of another type)
and the string stored under `SaaSTokenName` (empty when absent or of another
type). -/
theorem session_accessors (w : World) (l : CloudProvider) (req : Request) :
    (GetSession w l req).events = [.StoreGet l.SessionName] ∧
    (GetUserDetails w l req).events = [.StoreGet l.SessionName] ∧
    (GetProviderToken w l req).events = [.StoreGet l.SessionName] ∧
    match w.storeGet req l.SessionName with
    | .error e =>
      (GetSession w l req).result =
        some (none, some (errorsWrap e "Error: unable to get session")) ∧
      (GetUserDetails w l req).result =
        some (none, some (errorsWrap e "Error: unable to get session")) ∧
      (GetProviderToken w l req).result =
        some ("", some (errorsWrap e "Error: unable to get session"))
    | .ok session =>
      (GetSession w l req).result = some (some session, none) ∧
      (GetUserDetails w l req).result =
        some ((match session.Values.lookup "user" with
               | some (.user u) => u
               | _ => none), none) ∧
      (GetProviderToken w l req).result =
        some ((match session.Values.lookup l.SaaSTokenName with
               | some (.str s) => s
               | _ => ""), none) := by
  cases hs : w.storeGet req l.SessionName with
  | error e =>
    simp only [GetUserDetails, GetProviderToken, GetSession_error w l req e hs]
    simp [bind, Run.bind, pure, Run.ret]
  | ok s =>
    have hu : ∀ v : Option Value, asUser v = (match v with
        | some (.user u) => u
        | _ => none) := by
      intro v
      unfold asUser
      rfl
    have ht : ∀ v : Option Value, asString v = (match v with
        | some (.str s) => s
        | _ => "") := by
      intro v
      unfold asString
      rfl
    simp [GetUserDetails, GetProviderToken, GetSession_ok w l req s hs, bind, Run.bind, pure,
      Run.ret, mapGet, hu, ht]

/-- C8 fails on the code: the request `Logout` sends to `GET /logout` carries no
cookie at all, while the four other requests of this file attach the token
cookie with `AddCookie`. -/
theorem Logout_request_without_cookie :
    Logout sampleWorld sampleProvider cookieRequest =
      ⟨[.Do { Method := "GET", URL := "https://saas.example/logout", Body := some "",
              Cookies := [] },
        .StoreGet "meshery",
        .Save { Values := [("token", .str "abc")], Options := { MaxAge := -1 } },
        .Redirect "/login" 302], some ()⟩ := by
  decide

/-- C9, as stated, fails for the body `null`: it is not a JSON object, yet
`PublishResults` returns the empty string with a nil error. -/
theorem PublishResults_null_body_counterexample :
    nullBodyWorld.jsonParse "null" = some JSON.null ∧
    PublishResults nullBodyWorld sampleProvider cookieRequest "r" =
      ⟨[.StoreGet "meshery",
        .Do { Method := "POST", URL := "https://saas.example/result", Body := some "r",
              Cookies := [{ Name := "token", Value := "abc", Path := "/", HttpOnly := true,
                            Domain := "saas.example" }] }],
       some ("", none)⟩ := by
  constructor
  · rfl
  · decide

/-- C9, amended: for a response with status 201 and a readable body to the
request `PublishResults` sent: when the body is JSON `null` the result is the
empty string with a nil error; when it is a JSON object whose values are all
strings or `null` the result is the text of its last `id` member (empty for
`null`), or the empty string when it has none, with a nil error; in every other
case the result is the empty string with a non-nil error. -/
theorem PublishResults_created (w : World) (l : CloudProvider) (req : Request) (data : String)
    (cReq : ClientRequest) (resp : Response) (body : String)
    (hsent : Event.Do cReq ∈ (PublishResults w l req data).events)
    (hresp : w.clientDo cReq = .ok resp) (hstatus : resp.StatusCode = 201)
    (hbody : resp.Body = .ok body) :
    (w.jsonParse body = some .null → (PublishResults w l req data).result = some ("", none)) ∧
    (∀ ms, w.jsonParse body = some (.object ms) → (∀ kv ∈ ms, kv.2.isStringOrNull = true) →
      (PublishResults w l req data).result = some (idOf ms, none)) ∧
    (w.jsonParse body ≠ some .null →
      (∀ ms, w.jsonParse body = some (.object ms) → ∃ kv ∈ ms, kv.2.isStringOrNull = false) →
      ∃ err, (PublishResults w l req data).result = some ("", some err)) := by
  rw [PublishResults_sent w l req data cReq hsent, hresp]
  simp only [publishResultsResponse, hbody, hstatus, StatusCreated, if_true]
  refine ⟨?_, ?_, ?_⟩
  · intro hj
    simp [hj, unmarshalStringMap, mapGet]
  · intro ms hj hall
    have herr : (ms.foldl storeMember (([] : List (String × String)), none)).2 = none :=
      (foldl_storeMember_snd ms _).2 ⟨rfl, hall⟩
    have hget := foldl_storeMember_get ms (([] : List (String × String)), none) "id"
    rcases hm : ms.foldl storeMember (([] : List (String × String)), none) with ⟨m, e⟩
    rw [hm] at herr hget
    simp only at herr hget
    subst herr
    simp only [hj, unmarshalStringMap, hm, hget, idOf]
    cases lastMember ms "id" <;> simp [mapGet]
  · intro hnull hobj
    cases hj : w.jsonParse body with
    | none => simp [unmarshalStringMap]
    | some doc =>
      cases doc with
      | null => exact absurd hj hnull
      | object ms =>
        obtain ⟨kv, hkv, hbad⟩ := hobj ms hj
        have herr : (ms.foldl storeMember (([] : List (String × String)), none)).2 ≠ none := by
          intro h
          have := ((foldl_storeMember_snd ms _).1 h).2 kv hkv
          simp [hbad] at this
        rcases hm : ms.foldl storeMember (([] : List (String × String)), none) with ⟨m, e⟩
        rw [hm] at herr
        simp only [unmarshalStringMap, hm]
        cases e with
        | none => exact absurd rfl herr
        | some err => exact ⟨err, rfl⟩
      | bool b => simp [unmarshalStringMap]
      | number n => simp [unmarshalStringMap]
      | string s => simp [unmarshalStringMap]
      | array xs => simp [unmarshalStringMap]

/-- Witness of the amended C9: the body is an object whose `id` is `r-42`. -/
theorem PublishResults_created_witness :
    (PublishResults idBodyWorld sampleProvider cookieRequest "r").result = some ("r-42", none) :=
  (PublishResults_created idBodyWorld sampleProvider cookieRequest "r"
    { Method := "POST", URL := "https://saas.example/result", Body := some "r",
      Cookies := [{ Name := "token", Value := "abc", Path := "/", HttpOnly := true,
                    Domain := "saas.example" }] }
    { StatusCode := 201, Body := .ok "\x7b\"id\":\"r-42\"\x7d" } "\x7b\"id\":\"r-42\"\x7d"
    (by decide) rfl rfl rfl).2.1 [("id", .string "r-42")] rfl (by decide)

/-- C10: when the session store's `Get` returns an error, `GetSession` returns a
nil session with the wrapped error, and `FetchResults` and `PublishResults`,
which drop that error, stop at the dereference of the nil session: they return
neither a result nor an error, and the only call they have made is the store's
`Get`, so no backend request is sent. -/
theorem nil_session_dereference (w : World) (l : CloudProvider) (req : Request) (e : GoError)
    (h : w.storeGet req l.SessionName = .error e) :
    GetSession w l req =
      ⟨[.StoreGet l.SessionName],
       some (none, some (errorsWrap e "Error: unable to get session"))⟩ ∧
    (∀ page pageSize search order,
      FetchResults w l req page pageSize search order = ⟨[.StoreGet l.SessionName], none⟩) ∧
    (∀ data, PublishResults w l req data = ⟨[.StoreGet l.SessionName], none⟩) := by
  refine ⟨GetSession_error w l req e h, ?_, ?_⟩
  · intro page pageSize search order
    simp [FetchResults, GetSession_error w l req e h, bind, Run.bind, Run.nilDeref]
  · intro data
    simp [PublishResults, GetSession_error w l req e h, bind, Run.bind, Run.nilDeref]

/-- Witness of C10: a store that cannot decode the session cookie. -/
theorem nil_session_dereference_witness :
    FetchResults noSessionWorld sampleProvider cookieRequest "" "" "" "" =
      ⟨[.StoreGet "meshery"], none⟩ ∧
    PublishResults noSessionWorld sampleProvider cookieRequest "r" =
      ⟨[.StoreGet "meshery"], none⟩ :=
  have h := nil_session_dereference noSessionWorld sampleProvider cookieRequest
    ⟨"securecookie: the value is not valid"⟩ rfl
  ⟨h.2.1 "" "" "" "", h.2.2 "r"⟩

end models
